import Mathlib

/-!
Verification of melee-gci-compiler against its specification.

Shallow embedding of the program's core algorithms:
* `mgc/gci_tools/ppc_opcodes.py` — PPC rotate-and-mask helpers,
* `mgc/gci_tools/gci_encode.py` — the per-byte GCI codec,
* `mgc/gci_tools/mem2gci.py`    — the flat-address → container translator,
* `mgc/datatypes.py`, `mgc/commands.py`, `mgc/compiler.py` — write entries,
  the write/patch tables, collision detection and command execution,
* `mgc/builder.py` / `mgc/files.py` — `!begin`/`!end` preprocessing,
* `mgc/lineparser.py`, `mgc/type_validator.py` — raw-data line parsing.

Python integers are unbounded, so machine arithmetic is modelled on `Nat`/`Int`
with explicit masking (`&&& 0xffffffff`, `% 2^32`); Python's `~x` is `-x - 1`
on `Int`, its `>>` on a negative number is a floor shift (`Int.fdiv`), and its
`& 0xffffffff` / `& 0xff` on a possibly negative number is `Int.emod` by
`2^32` / `2^8`.  Fallible code (a `raise`, an out-of-range list index)
returns `Option`.
-/

namespace MGC

/-! ### ppc_opcodes.py

Every call site in `gci_encode.py` passes literal shift/mask arguments `< 32`,
so the `ValueError` guards of `mask` and `rotl` can never fire there; the
functions are embedded as total functions on those in-range arguments. -/

/-- `mask(mb, me)` from `ppc_opcodes.py`. -/
def mask (mb me : Nat) : Nat :=
  let x := 0xffffffff >>> mb
  let y := (0xffffffff <<< (31 - me)) &&& 0xffffffff
  if mb ≤ me then x &&& y else x ||| y

/-- `rotl(rx, sh)` from `ppc_opcodes.py`. -/
def rotl (rx sh : Nat) : Nat :=
  ((rx <<< sh) &&& 0xffffffff) ||| (rx >>> ((32 - sh) &&& 31))

/-- `rlwinm(rs, sh, mb, me)` from `ppc_opcodes.py`. -/
def rlwinm (rs sh mb me : Nat) : Nat :=
  rotl rs sh &&& mask mb me

/-- `rlwimi(ra, rs, sh, mb, me)` from `ppc_opcodes.py`; Python's `ra & ~m`
with nonnegative `ra < 2^32` equals `ra &&& (0xffffffff ^^^ m)`. -/
def rlwimi (ra rs sh mb me : Nat) : Nat :=
  let m := mask mb me
  let r := rotl rs sh
  (r &&& m) ||| (ra &&& (0xffffffff ^^^ m))

/-! ### gci_encode.py

`decode_byte` and `encode_byte` are register-transcription functions.  Each
consists of two independent strands of register arithmetic on `prev_byte`
(a mod-7 permutation selector and a mod-13 table index, both computed via
multiply-high constants), a seven-way bit-permutation of the data byte, and
a final XOR combine.  The strands are embedded as named helpers
(`decode_sel`/`decode_idx`/`decode_perm`, `encode_sel`/`encode_idx`/
`encode_perm`) that transcribe the corresponding source lines verbatim;
the top-level functions chain them in the source's order of effects. -/

/-- Python `~x` on an unbounded integer. -/
def pyNot (x : Int) : Int := -x - 1

/-- Python `x >> 32` on an unbounded integer (arithmetic / floor shift). -/
def pyShr32 (x : Int) : Int := Int.fdiv x (2 ^ 32)

/-- Python `x & 0xffffffff` on a possibly negative integer. -/
def pyMask32 (x : Int) : Int := Int.emod x (2 ^ 32)

/-- Python `x & 0xff` on a possibly negative integer. -/
def pyMask8 (x : Int) : Int := Int.emod x (2 ^ 8)

/-- `UNK_ARR` from `gci_encode.py`: the 13-entry correction table. -/
def UNK_ARR : List Nat :=
  [0x00000026, 0x000000FF, 0x000000E8, 0x000000EF, 0x00000042, 0x000000D6,
   0x00000001, 0x00000054, 0x00000014, 0x000000A3, 0x00000080, 0x000000FD,
   0x0000006E]

/-- The shared mod-7 prologue of `decode_byte` (`gci_encode.py` lines 31–43):
the value `r7` that selects the bit permutation. -/
def decode_sel (prev_byte : Nat) : Nat :=
  let r5 : Nat :=
    if prev_byte = 0 then
      ((0x92492493 * prev_byte) >>> 32) &&& 0xffffffff
    else
      let a : Int := pyMask32 (pyNot 0x92492493)
      (pyMask32 (pyShr32 (pyNot (a * prev_byte)))).toNat
  let r5 := (r5 + prev_byte) &&& 0xff
  let r5 := r5 >>> 2
  let r6 := rlwinm r5 1 31 31
  let r5 := r5 + r6
  let r5 := (r5 * 7) &&& 0xffffffff
  (pyMask32 ((prev_byte : Int) - (r5 : Int))).toNat

/-- The seven-way re-bit-ordering of `current_byte` keyed by `r7`
(`gci_encode.py` lines 45–116); `none` is the
`raise ValueError("r7 should be no greater than 6")` branch. -/
def decode_perm (r7 current_byte : Nat) : Option Nat :=
  if r7 = 0 then
    let r5 := rlwinm current_byte 1 29 29
    let r5 := rlwimi r5 current_byte 0 31 31
    let r5 := rlwimi r5 current_byte 2 27 27
    let r5 := rlwimi r5 current_byte 3 25 25
    let r5 := rlwimi r5 current_byte 29 30 30
    let r5 := rlwimi r5 current_byte 30 28 28
    let r5 := rlwimi r5 current_byte 31 26 26
    let r5 := rlwimi r5 current_byte 0 24 24
    some (rlwinm r5 0 24 31)
  else if r7 = 1 then
    let r5 := rlwinm current_byte 6 24 24
    let r5 := rlwimi r5 current_byte 1 30 30
    let r5 := rlwimi r5 current_byte 0 29 29
    let r5 := rlwimi r5 current_byte 29 31 31
    let r5 := rlwimi r5 current_byte 1 26 26
    let r5 := rlwimi r5 current_byte 31 27 27
    let r5 := rlwimi r5 current_byte 29 28 28
    let r5 := rlwimi r5 current_byte 31 25 25
    some (rlwinm r5 0 24 31)
  else if r7 = 2 then
    let r5 := rlwinm current_byte 2 28 28
    let r5 := rlwimi r5 current_byte 2 29 29
    let r5 := rlwimi r5 current_byte 4 25 25
    let r5 := rlwimi r5 current_byte 1 27 27
    let r5 := rlwimi r5 current_byte 3 24 24
    let r5 := rlwimi r5 current_byte 28 30 30
    let r5 := rlwimi r5 current_byte 26 31 31
    let r5 := rlwimi r5 current_byte 30 26 26
    some (rlwinm r5 0 24 31)
  else if r7 = 3 then
    let r5 := rlwinm current_byte 31 31 31
    let r5 := rlwimi r5 current_byte 4 27 27
    let r5 := rlwimi r5 current_byte 3 26 26
    let r5 := rlwimi r5 current_byte 30 30 30
    let r5 := rlwimi r5 current_byte 31 28 28
    let r5 := rlwimi r5 current_byte 1 25 25
    let r5 := rlwimi r5 current_byte 1 24 24
    let r5 := rlwimi r5 current_byte 27 29 29
    some (rlwinm r5 0 24 31)
  else if r7 = 4 then
    let r5 := rlwinm current_byte 4 26 26
    let r5 := rlwimi r5 current_byte 3 28 28
    let r5 := rlwimi r5 current_byte 31 30 30
    let r5 := rlwimi r5 current_byte 4 24 24
    let r5 := rlwimi r5 current_byte 2 25 25
    let r5 := rlwimi r5 current_byte 29 29 29
    let r5 := rlwimi r5 current_byte 30 27 27
    let r5 := rlwimi r5 current_byte 25 31 31
    some (rlwinm r5 0 24 31)
  else if r7 = 5 then
    let r5 := rlwinm current_byte 5 25 25
    let r5 := rlwimi r5 current_byte 5 26 26
    let r5 := rlwimi r5 current_byte 5 24 24
    let r5 := rlwimi r5 current_byte 0 28 28
    let r5 := rlwimi r5 current_byte 30 29 29
    let r5 := rlwimi r5 current_byte 27 31 31
    let r5 := rlwimi r5 current_byte 27 30 30
    let r5 := rlwimi r5 current_byte 29 27 27
    some (rlwinm r5 0 24 31)
  else if r7 = 6 then
    let r5 := rlwinm current_byte 0 30 30
    let r5 := rlwimi r5 current_byte 6 25 25
    let r5 := rlwimi r5 current_byte 30 31 31
    let r5 := rlwimi r5 current_byte 2 26 26
    let r5 := rlwimi r5 current_byte 0 27 27
    let r5 := rlwimi r5 current_byte 2 24 24
    let r5 := rlwimi r5 current_byte 28 29 29
    let r5 := rlwimi r5 current_byte 28 28 28
    some (rlwinm r5 0 24 31)
  else
    none

/-- The mod-13 strand of `decode_byte` (`gci_encode.py` lines 118–126):
the index into `UNK_ARR`. -/
def decode_idx (prev_byte : Nat) : Nat :=
  let r5 := ((0x4ec4ec4f * prev_byte) >>> 32) &&& 0xffffffff
  let r5 := r5 >>> 2
  let r6 := rlwinm r5 1 31 31
  let r5 := r5 + r6
  let r5 := r5 * 13
  let r0 := (pyMask8 ((prev_byte : Int) - (r5 : Int))).toNat
  let r6 := rlwinm r0 2 0 29
  r6 / 4

/-- `decode_byte(prev_byte, current_byte)` from `gci_encode.py`.  `none`
covers the `raise ValueError` branch and an out-of-range `UNK_ARR` index. -/
def decode_byte (prev_byte current_byte : Nat) : Option Nat :=
  match decode_perm (decode_sel prev_byte) current_byte with
  | none => none
  | some r4 =>
    match UNK_ARR.get? (decode_idx prev_byte) with
    | none => none
    | some r0 => some (((r4 ^^^ r0) ^^^ prev_byte) &&& 0xff)

/-- The mod-7 strand of `encode_byte` (`gci_encode.py` lines 140–157,
the `r0` register): the permutation selector before the `<< 2` shift. -/
def encode_sel (prev_byte : Nat) : Nat :=
  let r0 : Nat :=
    if prev_byte = 0 then
      ((0x92492493 * prev_byte) >>> 32) &&& 0xffffffff
    else
      let a : Int := pyMask32 (pyNot 0x92492493)
      (pyMask32 (pyShr32 (pyNot (a * prev_byte)))).toNat
  let r0 := (r0 + prev_byte) &&& 0xff
  let r0 := r0 >>> 2
  let r3 := rlwinm r0 1 31 31
  let r0 := r0 + r3
  let r0 := r0 * 7
  (pyMask8 ((prev_byte : Int) - (r0 : Int))).toNat

/-- The mod-13 strand of `encode_byte` (`gci_encode.py` lines 138–160,
the `r5` register): the index into `UNK_ARR`. -/
def encode_idx (prev_byte : Nat) : Nat :=
  let r5 := ((0x4ec4ec4f * prev_byte) >>> 32) &&& 0xffffffff
  let r3 := r5 >>> 2
  let r5 := rlwinm r3 1 31 31
  let r3 := r3 + r5
  let r5 := r3 * 13
  let r5 := (pyMask8 ((prev_byte : Int) - (r5 : Int))).toNat
  let r5 := rlwinm r5 2 0 29
  r5 / 4

/-- The seven-way re-bit-ordering of `r3` keyed by the shifted selector
(`gci_encode.py` lines 167–238).  The source has no `else` branch: when no
case matches, `r3` falls through unchanged. -/
def encode_perm (r0 r3 : Nat) : Nat :=
  if r0 = 0x0 then
    let r0' := rlwinm r3 3 27 27
    let r0' := rlwimi r0' r3 0 31 31
    let r0' := rlwimi r0' r3 31 30 30
    let r0' := rlwimi r0' r3 2 26 26
    let r0' := rlwimi r0' r3 30 29 29
    let r0' := rlwimi r0' r3 1 25 25
    let r0' := rlwimi r0' r3 29 28 28
    let r0' := rlwimi r0' r3 0 24 24
    rlwinm r0' 0 24 31
  else if r0 = 0x4 then
    let r0' := rlwinm r3 31 31 31
    let r0' := rlwimi r0' r3 3 28 28
    let r0' := rlwimi r0' r3 0 29 29
    let r0' := rlwimi r0' r3 3 25 25
    let r0' := rlwimi r0' r3 1 26 26
    let r0' := rlwimi r0' r3 31 27 27
    let r0' := rlwimi r0' r3 1 24 24
    let r0' := rlwimi r0' r3 26 30 30
    rlwinm r0' 0 24 31
  else if r0 = 0x8 then
    let r0' := rlwinm r3 4 26 26
    let r0' := rlwimi r0' r3 6 25 25
    let r0' := rlwimi r0' r3 30 31 31
    let r0' := rlwimi r0' r3 30 30 30
    let r0' := rlwimi r0' r3 31 28 28
    let r0' := rlwimi r0' r3 2 24 24
    let r0' := rlwimi r0' r3 28 29 29
    let r0' := rlwimi r0' r3 29 27 27
    rlwinm r0' 0 24 31
  else if r0 = 0xc then
    let r0' := rlwinm r3 2 28 28
    let r0' := rlwimi r0' r3 1 30 30
    let r0' := rlwimi r0' r3 5 24 24
    let r0' := rlwimi r0' r3 1 27 27
    let r0' := rlwimi r0' r3 28 31 31
    let r0' := rlwimi r0' r3 29 29 29
    let r0' := rlwimi r0' r3 31 26 26
    let r0' := rlwimi r0' r3 31 25 25
    rlwinm r0' 0 24 31
  else if r0 = 0x10 then
    let r0' := rlwinm r3 1 29 29
    let r0' := rlwimi r0' r3 7 24 24
    let r0' := rlwimi r0' r3 3 26 26
    let r0' := rlwimi r0' r3 29 31 31
    let r0' := rlwimi r0' r3 2 25 25
    let r0' := rlwimi r0' r3 28 30 30
    let r0' := rlwimi r0' r3 30 27 27
    let r0' := rlwimi r0' r3 28 28 28
    rlwinm r0' 0 24 31
  else if r0 = 0x14 then
    let r0' := rlwinm r3 5 25 25
    let r0' := rlwimi r0' r3 5 26 26
    let r0' := rlwimi r0' r3 2 27 27
    let r0' := rlwimi r0' r3 0 28 28
    let r0' := rlwimi r0' r3 3 24 24
    let r0' := rlwimi r0' r3 27 31 31
    let r0' := rlwimi r0' r3 27 30 30
    let r0' := rlwimi r0' r3 27 29 29
    rlwinm r0' 0 24 31
  else if r0 = 0x18 then
    let r0' := rlwinm r3 0 30 30
    let r0' := rlwimi r0' r3 2 29 29
    let r0' := rlwimi r0' r3 4 25 25
    let r0' := rlwimi r0' r3 4 24 24
    let r0' := rlwimi r0' r3 0 27 27
    let r0' := rlwimi r0' r3 30 28 28
    let r0' := rlwimi r0' r3 26 31 31
    let r0' := rlwimi r0' r3 30 26 26
    rlwinm r0' 0 24 31
  else
    r3

/-- `encode_byte(prev_byte, current_byte)` from `gci_encode.py`.  Effects in
source order: the `UNK_ARR` lookup (line 160, `none` on an out-of-range
index), the XOR combine (lines 162–163), the
`raise ValueError("r0 should be no greater than 6")` guard (lines 165–166,
`none`), the `<< 2` shift of the selector (line 167), and the dispatch. -/
def encode_byte (prev_byte current_byte : Nat) : Option Nat :=
  match UNK_ARR.get? (encode_idx prev_byte) with
  | none => none
  | some r5 =>
    let r3 := prev_byte ^^^ current_byte
    let r3 := r3 ^^^ r5
    let r0 := encode_sel prev_byte
    if r0 > 6 then
      none
    else
      some (encode_perm (rlwinm r0 2 0 29) r3)

end MGC

namespace MGC

/-! ### Codec facts

The two selector/index strands agree between `encode_byte` and `decode_byte`
and always land in range; the seven decode permutations invert the seven
encode permutations.  These are finite checks over the 256 byte values of
`prev_byte` (resp. the 7 selectors × 256 byte values). -/

set_option maxRecDepth 100000 in
theorem sel_idx_agree : ∀ p < 256, decode_sel p = encode_sel p ∧ encode_sel p ≤ 6 ∧
    decode_idx p = encode_idx p ∧ encode_idx p ≤ 12 := by decide

theorem unk_get : ∀ i ≤ 12, ∃ u, UNK_ARR.get? i = some u ∧ u < 256 := by
  intro i h
  interval_cases i <;> exact ⟨_, rfl, by norm_num⟩

set_option maxRecDepth 100000 in
theorem perm_inverse :
    ∀ k < 7, ∀ b < 256, decode_perm k (encode_perm (rlwinm k 2 0 29) b) = some b := by
  decide

set_option maxRecDepth 100000 in
theorem decode_perm_range : ∀ k < 7, ∀ x < 256, (decode_perm k x).getD 256 < 256 := by
  decide

set_option maxRecDepth 100000 in
theorem encode_perm_range : ∀ k < 7, ∀ b < 256, encode_perm (rlwinm k 2 0 29) b < 256 := by
  decide

theorem xor_lt_256 {a b : Nat} (ha : a < 256) (hb : b < 256) : a ^^^ b < 256 := by
  have h : a ^^^ b < 2 ^ 8 :=
    Nat.xor_lt_two_pow (by simpa using ha) (by simpa using hb)
  simpa using h

theorem and_255_eq {a : Nat} (h : a < 256) : a &&& 0xff = a := by
  have h2 : a &&& (2 ^ 8 - 1) = a := Nat.and_pow_two_sub_one_of_lt_two_pow (by norm_num [h])
  norm_num at h2
  exact h2

theorem and_255_lt (a : Nat) : a &&& 0xff < 256 := by
  have h2 : a &&& (2 ^ 8 - 1) = a % 2 ^ 8 := Nat.and_pow_two_sub_one_eq_mod a 8
  norm_num at h2
  rw [h2]
  exact Nat.mod_lt _ (by norm_num)

set_option maxRecDepth 100000 in
/-- C1: for every pair of bytes `p, x` in `[0,255]`,
`decode_byte(p, encode_byte(p, x)) == x`: encoding with a given
previous-plaintext byte and decoding with the same previous-plaintext byte
returns the original byte. -/
theorem codec_roundtrip (p x : Nat) (hp : p < 256) (hx : x < 256) :
    (encode_byte p x).bind (decode_byte p) = some x := by
  obtain ⟨hsel, hsel6, hidx, hidx12⟩ := sel_idx_agree p hp
  obtain ⟨u, hu, hu256⟩ := unk_get (encode_idx p) hidx12
  have hb : (p ^^^ x) ^^^ u < 256 := xor_lt_256 (xor_lt_256 hp hx) hu256
  have henc : encode_byte p x =
      some (encode_perm (rlwinm (encode_sel p) 2 0 29) ((p ^^^ x) ^^^ u)) := by
    simp only [encode_byte, hu]
    rw [if_neg (by omega)]
  rw [henc, Option.some_bind]
  have hperm := perm_inverse (encode_sel p) (by omega) ((p ^^^ x) ^^^ u) hb
  simp only [decode_byte, hsel, hperm, hidx, hu]
  rw [Nat.xor_cancel_right, Nat.xor_comm p x, Nat.xor_cancel_right,
    and_255_eq hx]

/-- Witness for C1 at `p = 0x5`, `x = 0xAB`. -/
theorem codec_roundtrip_witness :
    (encode_byte 0x5 0xAB).bind (decode_byte 0x5) = some 0xAB :=
  codec_roundtrip 0x5 0xAB (by norm_num) (by norm_num)

set_option maxRecDepth 100000 in
/-- C10: for every pair of bytes in `[0,255]`, `encode_byte` and
`decode_byte` return normally (no `raise` is reached, no out-of-range
`UNK_ARR` access happens) with a result in `[0,255]`; the mod-7 selector is
always in `[0,6]` and the mod-13 index always in `[0,12]`. -/
theorem codec_total_in_range (p x : Nat) (hp : p < 256) (hx : x < 256) :
    (∃ y, decode_byte p x = some y ∧ y < 256) ∧
    (∃ y, encode_byte p x = some y ∧ y < 256) ∧
    encode_sel p ≤ 6 ∧ decode_sel p ≤ 6 ∧ encode_idx p ≤ 12 ∧ decode_idx p ≤ 12 := by
  obtain ⟨hsel, hsel6, hidx, hidx12⟩ := sel_idx_agree p hp
  obtain ⟨u, hu, hu256⟩ := unk_get (encode_idx p) hidx12
  refine ⟨?_, ?_, hsel6, by omega, hidx12, by omega⟩
  · have hrange := decode_perm_range (decode_sel p) (by omega) x hx
    obtain ⟨r4, hr4⟩ : ∃ r4, decode_perm (decode_sel p) x = some r4 := by
      cases hcase : decode_perm (decode_sel p) x with
      | none => rw [hcase] at hrange; norm_num at hrange
      | some r4 => exact ⟨r4, rfl⟩
    refine ⟨((r4 ^^^ u) ^^^ p) &&& 0xff, ?_, and_255_lt _⟩
    simp only [decode_byte, hr4, hidx, hu]
  · refine ⟨encode_perm (rlwinm (encode_sel p) 2 0 29) ((p ^^^ x) ^^^ u), ?_, ?_⟩
    · simp only [encode_byte, hu]
      rw [if_neg (by omega)]
    · exact encode_perm_range (encode_sel p) (by omega) ((p ^^^ x) ^^^ u)
        (xor_lt_256 (xor_lt_256 hp hx) hu256)

/-- Witness for C10 at `p = 0xFE`, `x = 0x00`. -/
theorem codec_total_in_range_witness :
    (∃ y, decode_byte 0xFE 0x00 = some y ∧ y < 256) ∧
    (∃ y, encode_byte 0xFE 0x00 = some y ∧ y < 256) ∧
    encode_sel 0xFE ≤ 6 ∧ decode_sel 0xFE ≤ 6 ∧
    encode_idx 0xFE ≤ 12 ∧ decode_idx 0xFE ≤ 12 :=
  codec_total_in_range 0xFE 0x00 (by norm_num) (by norm_num)

end MGC

namespace MGC

/-! ### mem2gci.py

Addresses and offsets are embedded as `Int`, matching Python's signed
unbounded integers (the scan in `mem2gci_tuple` relies on `offset < 0`).
The `while remaining_data > 0` loop of `data2gci` is embedded with a fuel
parameter; `data2gci` supplies `data_length` as fuel, which the coverage
theorem shows is always sufficient (every iteration consumes at least one
byte).  A Python `raise ValueError` is `none`. -/

/-- `BLOCK_LIST` from `mem2gci.py`: GCI container offset of each block. -/
def BLOCK_LIST : List Int :=
  [0x02060, 0x04060, 0x06060, 0x08060, 0x0a060,
   0x0c060, 0x0e060, 0x10060, 0x12060, 0x14060]

/-- `MEM_LIST` from `mem2gci.py`: Melee start address for each GCI block
(blocks 0 and 8 are not in memory). -/
def MEM_LIST : List Int :=
  [0x00000000, 0x8045d6b8, 0x8045f5e4, 0x80461510, 0x8046343c,
   0x80465368, 0x80467294, 0x804691c0, 0x00000000, 0x8045bf28]

/-- `BLOCK_SIZE` from `mem2gci.py`. -/
def BLOCK_SIZE : List Int :=
  [0, 0x1f2c, 0x1f2c, 0x1f2c, 0x1f2c, 0x1f2c, 0x1f2c, 0x1f2c, 0, 0x1790]

/-- `MEM_START = MEM_LIST[9]` (memory starts with block 9). -/
def MEM_START : Int := MEM_LIST.getD 9 0

/-- `MEM_END = MEM_LIST[7] + BLOCK_SIZE[7]`. -/
def MEM_END : Int := MEM_LIST.getD 7 0 + BLOCK_SIZE.getD 7 0

/-- The `for index, block_address in enumerate(MEM_LIST)` scan of
`mem2gci_tuple`, with each entry paired with its `BLOCK_SIZE[index]`:
the first block whose range contains the address wins. -/
def findMemBlock (mem_address : Int) : List (Nat × Int × Int) → Option (Nat × Int)
  | [] => none
  | (index, block_address, block_size) :: rest =>
    let offset := mem_address - block_address
    if block_size ≤ offset ∨ offset < 0 then findMemBlock mem_address rest
    else some (index, offset)

/-- The table scanned by `mem2gci_tuple`: `enumerate(MEM_LIST)` fused with
the `BLOCK_SIZE[index]` lookups of the loop body. -/
def memBlockTable : List (Nat × Int × Int) :=
  (MEM_LIST.zip BLOCK_SIZE).enum.map (fun e => (e.1, e.2.1, e.2.2))

/-- `mem2gci_tuple(mem_address)` from `mem2gci.py`; `none` is the
`raise ValueError` (address outside the mapped range, or no block found). -/
def mem2gci_tuple (mem_address : Int) : Option (Nat × Int) :=
  if mem_address < MEM_START ∨ MEM_END ≤ mem_address then none
  else findMemBlock mem_address memBlockTable

/-- The `while remaining_data > 0` loop of `data2gci`, with explicit fuel. -/
def data2gciLoop (fuel : Nat) (current_address remaining_data : Int) :
    Option (List (Int × Int)) :=
  if remaining_data ≤ 0 then some []
  else
    match fuel with
    | 0 => none
    | fuel' + 1 =>
      match mem2gci_tuple current_address with
      | none => none
      | some (current_block_number, current_offset) =>
        let current_gci_address := BLOCK_LIST.getD current_block_number 0 + current_offset
        let amount_block_can_fit := BLOCK_SIZE.getD current_block_number 0 - current_offset
        match data2gciLoop fuel' (current_address + amount_block_can_fit)
            (remaining_data - amount_block_can_fit) with
        | none => none
        | some rest =>
          some ((current_gci_address, min remaining_data amount_block_can_fit) :: rest)

/-- `data2gci(mem_start_address, data_length)` from `mem2gci.py`; `none`
covers the three `raise ValueError` rejections and fuel exhaustion (which
the coverage theorem proves unreachable for accepted inputs). -/
def data2gci (mem_start_address data_length : Int) : Option (List (Int × Int)) :=
  if data_length ≤ 0 then none
  else if mem_start_address < MEM_START then none
  else if MEM_END < mem_start_address + data_length then none
  else data2gciLoop data_length.toNat mem_start_address data_length

theorem MEM_START_eq : MEM_START = 0x8045bf28 := rfl

theorem MEM_END_eq : MEM_END = 0x8046b0ec := rfl

theorem memBlockTable_eq : memBlockTable =
    [(0, 0x00000000, 0), (1, 0x8045d6b8, 0x1f2c), (2, 0x8045f5e4, 0x1f2c),
     (3, 0x80461510, 0x1f2c), (4, 0x8046343c, 0x1f2c), (5, 0x80465368, 0x1f2c),
     (6, 0x80467294, 0x1f2c), (7, 0x804691c0, 0x1f2c), (8, 0x00000000, 0),
     (9, 0x8045bf28, 0x1790)] := by rfl

set_option maxHeartbeats 1000000 in
/-- Closed-form case analysis of the `mem2gci_tuple` scan: the first (and
only) block whose memory range contains the address. -/
theorem mem2gci_tuple_eq (a : Int) :
    mem2gci_tuple a =
      if a < 0x8045bf28 then none
      else if a < 0x8045d6b8 then some (9, a - 0x8045bf28)
      else if a < 0x8045f5e4 then some (1, a - 0x8045d6b8)
      else if a < 0x80461510 then some (2, a - 0x8045f5e4)
      else if a < 0x8046343c then some (3, a - 0x80461510)
      else if a < 0x80465368 then some (4, a - 0x8046343c)
      else if a < 0x80467294 then some (5, a - 0x80465368)
      else if a < 0x804691c0 then some (6, a - 0x80467294)
      else if a < 0x8046b0ec then some (7, a - 0x804691c0)
      else none := by
  simp only [mem2gci_tuple, MEM_START_eq, MEM_END_eq, memBlockTable_eq]
  rcases lt_or_le a 0x8045bf28 with h | h0
  · rw [if_pos (by omega : a < 0x8045bf28 ∨ 0x8046b0ec ≤ a)]
    split_ifs <;> first | rfl | omega
  rcases le_or_lt 0x8046b0ec a with h | h8
  · rw [if_pos (by omega : a < 0x8045bf28 ∨ 0x8046b0ec ≤ a)]
    split_ifs <;> first | rfl | omega
  rw [if_neg (by omega : ¬(a < 0x8045bf28 ∨ 0x8046b0ec ≤ a))]
  simp only [findMemBlock]
  rcases lt_or_le a 0x8045d6b8 with h | h1
  · rw [if_pos (by omega), if_pos (by omega), if_pos (by omega), if_pos (by omega), if_pos (by omega), if_pos (by omega), if_pos (by omega), if_pos (by omega), if_pos (by omega), if_neg (by omega)]
    split_ifs <;> first | rfl | omega
  rcases lt_or_le a 0x8045f5e4 with h | h2
  · rw [if_pos (by omega), if_neg (by omega)]
    split_ifs <;> first | rfl | omega
  rcases lt_or_le a 0x80461510 with h | h3
  · rw [if_pos (by omega), if_pos (by omega), if_neg (by omega)]
    split_ifs <;> first | rfl | omega
  rcases lt_or_le a 0x8046343c with h | h4
  · rw [if_pos (by omega), if_pos (by omega), if_pos (by omega), if_neg (by omega)]
    split_ifs <;> first | rfl | omega
  rcases lt_or_le a 0x80465368 with h | h5
  · rw [if_pos (by omega), if_pos (by omega), if_pos (by omega), if_pos (by omega), if_neg (by omega)]
    split_ifs <;> first | rfl | omega
  rcases lt_or_le a 0x80467294 with h | h6
  · rw [if_pos (by omega), if_pos (by omega), if_pos (by omega), if_pos (by omega), if_pos (by omega), if_neg (by omega)]
    split_ifs <;> first | rfl | omega
  rcases lt_or_le a 0x804691c0 with h | h7
  · rw [if_pos (by omega), if_pos (by omega), if_pos (by omega), if_pos (by omega), if_pos (by omega), if_pos (by omega), if_neg (by omega)]
    split_ifs <;> first | rfl | omega
  · rw [if_pos (by omega), if_pos (by omega), if_pos (by omega), if_pos (by omega), if_pos (by omega), if_pos (by omega), if_pos (by omega), if_neg (by omega)]
    split_ifs <;> first | rfl | omega

end MGC

namespace MGC

theorem memD1 : MEM_LIST.getD 1 0 = 0x8045d6b8 := rfl
theorem memD2 : MEM_LIST.getD 2 0 = 0x8045f5e4 := rfl
theorem memD3 : MEM_LIST.getD 3 0 = 0x80461510 := rfl
theorem memD4 : MEM_LIST.getD 4 0 = 0x8046343c := rfl
theorem memD5 : MEM_LIST.getD 5 0 = 0x80465368 := rfl
theorem memD6 : MEM_LIST.getD 6 0 = 0x80467294 := rfl
theorem memD7 : MEM_LIST.getD 7 0 = 0x804691c0 := rfl
theorem memD9 : MEM_LIST.getD 9 0 = 0x8045bf28 := rfl
theorem sizeD1 : BLOCK_SIZE.getD 1 0 = 0x1f2c := rfl
theorem sizeD2 : BLOCK_SIZE.getD 2 0 = 0x1f2c := rfl
theorem sizeD3 : BLOCK_SIZE.getD 3 0 = 0x1f2c := rfl
theorem sizeD4 : BLOCK_SIZE.getD 4 0 = 0x1f2c := rfl
theorem sizeD5 : BLOCK_SIZE.getD 5 0 = 0x1f2c := rfl
theorem sizeD6 : BLOCK_SIZE.getD 6 0 = 0x1f2c := rfl
theorem sizeD7 : BLOCK_SIZE.getD 7 0 = 0x1f2c := rfl
theorem sizeD9 : BLOCK_SIZE.getD 9 0 = 0x1790 := rfl
theorem blkD1 : BLOCK_LIST.getD 1 0 = 0x04060 := rfl
theorem blkD2 : BLOCK_LIST.getD 2 0 = 0x06060 := rfl
theorem blkD3 : BLOCK_LIST.getD 3 0 = 0x08060 := rfl
theorem blkD4 : BLOCK_LIST.getD 4 0 = 0x0a060 := rfl
theorem blkD5 : BLOCK_LIST.getD 5 0 = 0x0c060 := rfl
theorem blkD6 : BLOCK_LIST.getD 6 0 = 0x0e060 := rfl
theorem blkD7 : BLOCK_LIST.getD 7 0 = 0x10060 := rfl
theorem blkD9 : BLOCK_LIST.getD 9 0 = 0x14060 := rfl

/-- Every flat address in the mapped range falls in exactly one of the eight
mapped blocks; `mem2gci_tuple` returns that block and the in-block offset. -/
theorem mem2gci_block (a : Int) (h1 : MEM_START ≤ a) (h2 : a < MEM_END) :
    ∃ b : Nat, b < 10 ∧ mem2gci_tuple a = some (b, a - MEM_LIST.getD b 0) ∧
      MEM_LIST.getD b 0 ≤ a ∧ a < MEM_LIST.getD b 0 + BLOCK_SIZE.getD b 0 ∧
      MEM_LIST.getD b 0 + BLOCK_SIZE.getD b 0 ≤ MEM_END := by
  rw [MEM_START_eq] at h1
  rw [MEM_END_eq] at h2
  rw [mem2gci_tuple_eq, MEM_END_eq]
  rcases lt_or_le a 0x8045d6b8 with h | h9up
  · refine ⟨9, by norm_num, ?_, ?_, ?_, ?_⟩
    · rw [if_neg (by omega), if_pos (by omega), memD9]
    · rw [memD9]; omega
    · rw [memD9, sizeD9]; omega
    · rw [memD9, sizeD9]; omega
  rcases lt_or_le a 0x8045f5e4 with h | h1up
  · refine ⟨1, by norm_num, ?_, ?_, ?_, ?_⟩
    · rw [if_neg (by omega), if_neg (by omega), if_pos (by omega), memD1]
    · rw [memD1]; omega
    · rw [memD1, sizeD1]; omega
    · rw [memD1, sizeD1]; omega
  rcases lt_or_le a 0x80461510 with h | h2up
  · refine ⟨2, by norm_num, ?_, ?_, ?_, ?_⟩
    · iterate 3 rw [if_neg (by omega)]
      rw [if_pos (by omega), memD2]
    · rw [memD2]; omega
    · rw [memD2, sizeD2]; omega
    · rw [memD2, sizeD2]; omega
  rcases lt_or_le a 0x8046343c with h | h3up
  · refine ⟨3, by norm_num, ?_, ?_, ?_, ?_⟩
    · iterate 4 rw [if_neg (by omega)]
      rw [if_pos (by omega), memD3]
    · rw [memD3]; omega
    · rw [memD3, sizeD3]; omega
    · rw [memD3, sizeD3]; omega
  rcases lt_or_le a 0x80465368 with h | h4up
  · refine ⟨4, by norm_num, ?_, ?_, ?_, ?_⟩
    · iterate 5 rw [if_neg (by omega)]
      rw [if_pos (by omega), memD4]
    · rw [memD4]; omega
    · rw [memD4, sizeD4]; omega
    · rw [memD4, sizeD4]; omega
  rcases lt_or_le a 0x80467294 with h | h5up
  · refine ⟨5, by norm_num, ?_, ?_, ?_, ?_⟩
    · iterate 6 rw [if_neg (by omega)]
      rw [if_pos (by omega), memD5]
    · rw [memD5]; omega
    · rw [memD5, sizeD5]; omega
    · rw [memD5, sizeD5]; omega
  rcases lt_or_le a 0x804691c0 with h | h6up
  · refine ⟨6, by norm_num, ?_, ?_, ?_, ?_⟩
    · iterate 7 rw [if_neg (by omega)]
      rw [if_pos (by omega), memD6]
    · rw [memD6]; omega
    · rw [memD6, sizeD6]; omega
    · rw [memD6, sizeD6]; omega
  rcases lt_or_le a 0x8046b0ec with h | h7up
  · refine ⟨7, by norm_num, ?_, ?_, ?_, ?_⟩
    · iterate 8 rw [if_neg (by omega)]
      rw [if_pos (by omega), memD7]
    · rw [memD7]; omega
    · rw [memD7, sizeD7]; omega
    · rw [memD7, sizeD7]; omega
  · exfalso; omega

/-- A translator fragment lies wholly within one block's container range. -/
def fragWithinBlock (frag : Int × Int) : Prop :=
  ∃ b : Nat, b < 10 ∧ 0 < frag.2 ∧ BLOCK_LIST.getD b 0 ≤ frag.1 ∧
    frag.1 + frag.2 ≤ BLOCK_LIST.getD b 0 + BLOCK_SIZE.getD b 0

/-- The `data2gci` loop, run with enough fuel on an in-range span, succeeds;
its fragment lengths sum to the requested length and every fragment stays
inside a single block. -/
theorem data2gciLoop_spec : ∀ (fuel : Nat) (addr rem : Int),
    0 < rem → rem ≤ (fuel : Int) → MEM_START ≤ addr → addr + rem ≤ MEM_END →
    ∃ l, data2gciLoop fuel addr rem = some l ∧
      (l.map Prod.snd).sum = rem ∧ ∀ frag ∈ l, fragWithinBlock frag := by
  intro fuel
  induction fuel with
  | zero => intro addr rem h1 h2 _ _; exfalso; omega
  | succ n ih =>
    intro addr rem h1 h2 hlo hhi
    obtain ⟨b, hb10, htuple, hge, hlt, hend⟩ := mem2gci_block addr hlo (by omega)
    have hfit : 0 < BLOCK_SIZE.getD b 0 - (addr - MEM_LIST.getD b 0) := by omega
    simp only [data2gciLoop, htuple]
    rw [if_neg (by omega)]
    by_cases hrem : rem - (BLOCK_SIZE.getD b 0 - (addr - MEM_LIST.getD b 0)) ≤ 0
    · have hrec : data2gciLoop n
          (addr + (BLOCK_SIZE.getD b 0 - (addr - MEM_LIST.getD b 0)))
          (rem - (BLOCK_SIZE.getD b 0 - (addr - MEM_LIST.getD b 0))) = some [] := by
        cases n <;> simp only [data2gciLoop] <;> rw [if_pos hrem]
      rw [hrec]
      have hmin : min rem (BLOCK_SIZE.getD b 0 - (addr - MEM_LIST.getD b 0)) = rem :=
        min_eq_left (by omega)
      refine ⟨_, rfl, ?_, ?_⟩
      · simp only [List.map_cons, List.map_nil, List.sum_cons, List.sum_nil, hmin]
        omega
      · intro frag hf
        rw [List.mem_singleton] at hf
        subst hf
        exact ⟨b, hb10, by simp only [hmin]; omega, by omega, by simp only [hmin]; omega⟩
    · obtain ⟨l', hl', hsum', hfrag'⟩ := ih
        (addr + (BLOCK_SIZE.getD b 0 - (addr - MEM_LIST.getD b 0)))
        (rem - (BLOCK_SIZE.getD b 0 - (addr - MEM_LIST.getD b 0)))
        (by omega) (by omega) (by omega) (by omega)
      rw [hl']
      have hmin : min rem (BLOCK_SIZE.getD b 0 - (addr - MEM_LIST.getD b 0)) =
          BLOCK_SIZE.getD b 0 - (addr - MEM_LIST.getD b 0) := min_eq_right (by omega)
      refine ⟨_, rfl, ?_, ?_⟩
      · simp only [List.map_cons, List.sum_cons, hsum', hmin]
        omega
      · intro frag hf
        rcases List.mem_cons.mp hf with hf | hf
        · subst hf
          exact ⟨b, hb10, by simp only [hmin]; omega, by omega, by simp only [hmin]; omega⟩
        · exact hfrag' frag hf

set_option maxHeartbeats 1000000 in
/-- C2: for every flat start address and length accepted by the translator
(`length > 0`, `start ≥ MEM_START`, `start + length ≤ MEM_END`), `data2gci`
returns a fragment list whose lengths sum exactly to the requested length,
and no fragment crosses a block boundary. -/
theorem data2gci_coverage (start len : Int) (h1 : 0 < len)
    (h2 : MEM_START ≤ start) (h3 : start + len ≤ MEM_END) :
    ∃ l, data2gci start len = some l ∧ (l.map Prod.snd).sum = len ∧
      ∀ frag ∈ l, fragWithinBlock frag := by
  obtain ⟨l, hl, hsum, hfrag⟩ := data2gciLoop_spec len.toNat start len h1
    (by omega) h2 h3
  refine ⟨l, ?_, hsum, hfrag⟩
  simp only [data2gci]
  rw [if_neg (by omega), if_neg (by omega), if_neg (by omega)]
  exact hl

/-- Witness for C2: a 16-byte span inside block 2. -/
theorem data2gci_coverage_witness :
    ∃ l, data2gci 0x80460000 0x10 = some l ∧ (l.map Prod.snd).sum = 0x10 ∧
      ∀ frag ∈ l, fragWithinBlock frag :=
  data2gci_coverage 0x80460000 0x10 (by norm_num) (by decide) (by decide)

end MGC

namespace MGC

/-- Proof device for the ascending-offset analysis: the affine map sending a
flat address in blocks 1–7 to its container offset (each block subtracts its
own delta, and the deltas strictly decrease from block 1 to block 7). -/
def locToGci (a : Int) : Int :=
  if a < 0x8045f5e4 then a - (0x8045d6b8 - 0x04060)
  else if a < 0x80461510 then a - (0x8045f5e4 - 0x06060)
  else if a < 0x8046343c then a - (0x80461510 - 0x08060)
  else if a < 0x80465368 then a - (0x8046343c - 0x0a060)
  else if a < 0x80467294 then a - (0x80465368 - 0x0c060)
  else if a < 0x804691c0 then a - (0x80467294 - 0x0e060)
  else a - (0x804691c0 - 0x10060)

theorem locToGci_mono {a1 a2 : Int} (h : a1 < a2) : locToGci a1 < locToGci a2 := by
  unfold locToGci
  split_ifs <;> omega

/-- Variant of `mem2gci_block` for addresses at or above block 1's base: the
container address of the fragment equals `locToGci` of the flat address. -/
theorem mem2gci_block_asc (a : Int) (h1 : 0x8045d6b8 ≤ a) (h2 : a < MEM_END) :
    ∃ b : Nat, mem2gci_tuple a = some (b, a - MEM_LIST.getD b 0) ∧
      MEM_LIST.getD b 0 ≤ a ∧ a < MEM_LIST.getD b 0 + BLOCK_SIZE.getD b 0 ∧
      MEM_LIST.getD b 0 + BLOCK_SIZE.getD b 0 ≤ MEM_END ∧
      BLOCK_LIST.getD b 0 + (a - MEM_LIST.getD b 0) = locToGci a := by
  rw [MEM_END_eq] at h2
  rw [mem2gci_tuple_eq, MEM_END_eq]
  rcases lt_or_le a 0x8045f5e4 with h | h1up
  · refine ⟨1, ?_, ?_, ?_, ?_, ?_⟩
    · rw [if_neg (by omega), if_neg (by omega), if_pos (by omega), memD1]
    · rw [memD1]; omega
    · rw [memD1, sizeD1]; omega
    · rw [memD1, sizeD1]; omega
    · rw [blkD1, memD1]
      unfold locToGci
      rw [if_pos (by omega)]
      omega
  rcases lt_or_le a 0x80461510 with h | h2up
  · refine ⟨2, ?_, ?_, ?_, ?_, ?_⟩
    · iterate 3 rw [if_neg (by omega)]
      rw [if_pos (by omega), memD2]
    · rw [memD2]; omega
    · rw [memD2, sizeD2]; omega
    · rw [memD2, sizeD2]; omega
    · rw [blkD2, memD2]
      unfold locToGci
      rw [if_neg (by omega), if_pos (by omega)]
      omega
  rcases lt_or_le a 0x8046343c with h | h3up
  · refine ⟨3, ?_, ?_, ?_, ?_, ?_⟩
    · iterate 4 rw [if_neg (by omega)]
      rw [if_pos (by omega), memD3]
    · rw [memD3]; omega
    · rw [memD3, sizeD3]; omega
    · rw [memD3, sizeD3]; omega
    · rw [blkD3, memD3]
      unfold locToGci
      rw [if_neg (by omega), if_neg (by omega), if_pos (by omega)]
      omega
  rcases lt_or_le a 0x80465368 with h | h4up
  · refine ⟨4, ?_, ?_, ?_, ?_, ?_⟩
    · iterate 5 rw [if_neg (by omega)]
      rw [if_pos (by omega), memD4]
    · rw [memD4]; omega
    · rw [memD4, sizeD4]; omega
    · rw [memD4, sizeD4]; omega
    · rw [blkD4, memD4]
      unfold locToGci
      iterate 3 rw [if_neg (by omega)]
      rw [if_pos (by omega)]
      omega
  rcases lt_or_le a 0x80467294 with h | h5up
  · refine ⟨5, ?_, ?_, ?_, ?_, ?_⟩
    · iterate 6 rw [if_neg (by omega)]
      rw [if_pos (by omega), memD5]
    · rw [memD5]; omega
    · rw [memD5, sizeD5]; omega
    · rw [memD5, sizeD5]; omega
    · rw [blkD5, memD5]
      unfold locToGci
      iterate 4 rw [if_neg (by omega)]
      rw [if_pos (by omega)]
      omega
  rcases lt_or_le a 0x804691c0 with h | h6up
  · refine ⟨6, ?_, ?_, ?_, ?_, ?_⟩
    · iterate 7 rw [if_neg (by omega)]
      rw [if_pos (by omega), memD6]
    · rw [memD6]; omega
    · rw [memD6, sizeD6]; omega
    · rw [memD6, sizeD6]; omega
    · rw [blkD6, memD6]
      unfold locToGci
      iterate 5 rw [if_neg (by omega)]
      rw [if_pos (by omega)]
      omega
  rcases lt_or_le a 0x8046b0ec with h | h7up
  · refine ⟨7, ?_, ?_, ?_, ?_, ?_⟩
    · iterate 8 rw [if_neg (by omega)]
      rw [if_pos (by omega), memD7]
    · rw [memD7]; omega
    · rw [memD7, sizeD7]; omega
    · rw [memD7, sizeD7]; omega
    · rw [blkD7, memD7]
      unfold locToGci
      iterate 6 rw [if_neg (by omega)]
      omega
  · exfalso; omega

/-- The `data2gci` loop, started at or above block 1's base, yields a
fragment list headed by the container image of the start address and
strictly ascending in container offset. -/
theorem data2gciLoop_asc : ∀ (fuel : Nat) (addr rem : Int),
    0 < rem → rem ≤ (fuel : Int) → 0x8045d6b8 ≤ addr → addr + rem ≤ MEM_END →
    ∃ len0 tl, data2gciLoop fuel addr rem = some ((locToGci addr, len0) :: tl) ∧
      List.Chain' (fun p q : Int × Int => p.1 < q.1) ((locToGci addr, len0) :: tl) := by
  intro fuel
  induction fuel with
  | zero => intro addr rem h1 h2 _ _; exfalso; omega
  | succ n ih =>
    intro addr rem h1 h2 hlo hhi
    obtain ⟨b, htuple, hge, hlt, hend, hgci⟩ := mem2gci_block_asc addr hlo (by omega)
    have hfit : 0 < BLOCK_SIZE.getD b 0 - (addr - MEM_LIST.getD b 0) := by omega
    simp only [data2gciLoop, htuple]
    rw [if_neg (by omega)]
    by_cases hrem : rem - (BLOCK_SIZE.getD b 0 - (addr - MEM_LIST.getD b 0)) ≤ 0
    · have hrec : data2gciLoop n
          (addr + (BLOCK_SIZE.getD b 0 - (addr - MEM_LIST.getD b 0)))
          (rem - (BLOCK_SIZE.getD b 0 - (addr - MEM_LIST.getD b 0))) = some [] := by
        cases n <;> simp only [data2gciLoop] <;> rw [if_pos hrem]
      rw [hrec]
      exact ⟨_, [], by rw [hgci], List.chain'_singleton _⟩
    · obtain ⟨len0', tl', hl', hchain'⟩ := ih
        (addr + (BLOCK_SIZE.getD b 0 - (addr - MEM_LIST.getD b 0)))
        (rem - (BLOCK_SIZE.getD b 0 - (addr - MEM_LIST.getD b 0)))
        (by omega) (by omega) (by omega) (by omega)
      rw [hl']
      refine ⟨_, (locToGci (addr + (BLOCK_SIZE.getD b 0 - (addr - MEM_LIST.getD b 0))),
        len0') :: tl', by rw [hgci], ?_⟩
      exact List.chain'_cons.mpr ⟨locToGci_mono (by omega), hchain'⟩

/-- C3 counterexample: the accepted range starting at the lowest mapped flat
address (inside block 9) and crossing into block 1 spans two blocks, yet its
fragments' container offsets strictly descend (`0x14060` then `0x04060`). -/
theorem data2gci_descending_counterexample :
    data2gci 0x8045bf28 0x1791 = some [(0x14060, 0x1790), (0x04060, 1)] ∧
    ¬ List.Chain' (fun p q : Int × Int => p.1 < q.1)
        [((0x14060 : Int), (0x1790 : Int)), ((0x04060 : Int), (1 : Int))] := by
  refine ⟨by decide, ?_⟩
  intro h
  have := (List.chain'_cons.mp h).1
  omega

set_option maxHeartbeats 1000000 in
/-- C3 (amended): the fragment list is strictly ascending in container
offset for every accepted flat range starting at or above block 1's memory
base (`MEM_LIST[1]`); a range that starts in block 9 (the lowest flat
addresses, highest container offsets) and crosses into block 1 instead
produces a descending adjacent pair. -/
theorem data2gci_ascending (start len : Int) (h1 : 0 < len)
    (h2 : MEM_LIST.getD 1 0 ≤ start) (h3 : start + len ≤ MEM_END) :
    ∃ l, data2gci start len = some l ∧
      List.Chain' (fun p q : Int × Int => p.1 < q.1) l := by
  rw [memD1] at h2
  have hms : MEM_START = 0x8045bf28 := MEM_START_eq
  obtain ⟨len0, tl, hl, hchain⟩ := data2gciLoop_asc len.toNat start len h1
    (by omega) h2 h3
  refine ⟨_, ?_, hchain⟩
  simp only [data2gci]
  rw [if_neg (by omega), if_neg (by omega), if_neg (by omega)]
  exact hl

/-- Witness for C3 (amended): a span from block 1 into block 2. -/
theorem data2gci_ascending_witness :
    ∃ l, data2gci 0x8045d6b8 0x3000 = some l ∧
      List.Chain' (fun p q : Int × Int => p.1 < q.1) l :=
  data2gci_ascending 0x8045d6b8 0x3000 (by norm_num) (by decide) (by decide)

end MGC

namespace MGC

/-! ### datatypes.py / commands.py

The refactored compiler (`mgc/datatypes.py`, `mgc/commands.py`) threads a
`CompilerState` through command execution, taking `state.copy()` at each
command boundary.  `copy` is `copy.copy`, a *shallow* copy: scalar fields
(pointer, modes, the current-macro name, the rebound `block_order` list) are
per-copy, while container fields (`write_table`, `patch_table`,
`macro_files`, the file caches) are the *same objects* in every copy, and
the commands mutate them in place (`state.write_table += entries`,
`state.macro_files[name] = []`).  The embedding therefore splits the state:
`CompilerState` holds the per-copy scalar fields, and `Store` holds the
shared containers, threaded linearly through execution — including past a
raised error, exactly as the Python heap is.

`logger.warning` calls for write collisions are modelled as the emitted
list of reported offsets (`max(prev_entry.address, entry.address)`); other
log output is not modelled.  `len(state.gci_data)` is the constant
`0x16040` (`gci_data: bytearray = bytearray(0x16040)` and the buffer is
never reassigned by a command).  Python exceptions are `Except.error`; the
store at the moment the exception propagates is returned alongside. -/

/-- Equality of `Except` results is decidable (needed to evaluate closed
runs of the command interpreter). -/
instance {α β : Type} [DecidableEq α] [DecidableEq β] : DecidableEq (Except α β) := fun x y =>
  match x, y with
  | .error a, .error b =>
    if h : a = b then isTrue (by rw [h]) else isFalse (by simp [h])
  | .ok a, .ok b =>
    if h : a = b then isTrue (by rw [h]) else isFalse (by simp [h])
  | .error _, .ok _ => isFalse (by simp)
  | .ok _, .error _ => isFalse (by simp)

/-- `Context` from `context.py`: source file and 0-based line number. -/
structure Context where
  path : String
  line_number : Int
deriving DecidableEq

/-- `WriteEntry` from `datatypes.py`; `context` is the `context.top()`
captured at creation. -/
structure WriteEntry where
  address : Int
  data : List Nat
  context : Context
deriving DecidableEq

/-- `WriteEntry.intersects` from `datatypes.py`, verbatim boolean test. -/
def WriteEntry.intersects (self entry : WriteEntry) : Bool :=
  decide ((self.address ≤ entry.address ∧
           self.address + (self.data.length : Int) > entry.address) ∨
          (entry.address ≤ self.address ∧
           entry.address + (entry.data.length : Int) > self.address))

/-- Spec wording: the half-open byte ranges `[address, address+len)` of two
write entries overlap (share at least one byte position). -/
def rangesOverlap (e1 e2 : WriteEntry) : Prop :=
  ∃ i : Int, (e1.address ≤ i ∧ i < e1.address + (e1.data.length : Int)) ∧
             (e2.address ≤ i ∧ i < e2.address + (e2.data.length : Int))

/-- The command variants executed by `commands.py` that the claims touch
(`string` and the path-based loaders are not modelled; `blockorder`'s ten
`b0..b9` arguments are passed as one list). -/
inductive Command where
  | loc (address : Int)
  | gci (address : Int)
  | patch (address : Int)
  | add (amount : Int)
  | write (data : List Nat)
  | fill (count : Int) (pattern : List Nat)
  | macroStart (name : String)
  | macroEnd
  | callMacro (name : String) (count : Nat)
  | blockorder (bs : List Int)
  | echo (message : String)
deriving DecidableEq

/-- `MGCLine` from `datatypes.py`: original line number plus the command
with its validated arguments. -/
structure MGCLine where
  line_number : Int
  command : Command
deriving DecidableEq

/-- The per-copy scalar fields of `CompilerState` (`datatypes.py`): these
are rebound by assignment, so `state.copy()` really copies them. -/
structure CompilerState where
  pointer : Int
  gci_pointer_mode : Bool
  patch_mode : Bool
  current_macro : String
  block_order : List Int
deriving DecidableEq

/-- The shared containers of `CompilerState`: mutated in place through every
shallow copy.  `macro_files` is an association list; an insertion shadows
any earlier binding, like a dict assignment. -/
structure Store where
  write_table : List WriteEntry
  patch_table : List WriteEntry
  macro_files : List (String × List MGCLine)
deriving DecidableEq

/-- `len(state.gci_data)`: the container buffer size, `bytearray(0x16040)`. -/
def GCI_DATA_LEN : Int := 0x16040

/-- `WriteEntryList(data, state)` from `datatypes.py`.  In loc mode the
source passes `data` (bytes) where `data2gci` expects an integer length
(`data2gci(state.pointer, data)`), which raises an uncaught `TypeError` in
Python; that branch is embedded as an error. -/
def WriteEntryList (data : List Nat) (ctx : Context) (st : CompilerState) :
    Except String (List WriteEntry) :=
  if st.gci_pointer_mode then
    if st.pointer < 0 then .error "Data pointer must be a positive value"
    else if GCI_DATA_LEN < st.pointer + (data.length : Int) then
      .error "Attempting to write past the end of the GCI"
    else .ok [⟨st.pointer, data, ctx⟩]
  else
    if st.pointer < 0 then .error "Data pointer must be a positive value"
    else .error "TypeError: data2gci received bytes where a length was expected"

/-- The inner loop of `_check_collisions` (`commands.py`): offsets warned
against one new entry, scanning the old entries in order. -/
def checkEntry (entry : WriteEntry) : List WriteEntry → List Int
  | [] => []
  | prev_entry :: rest =>
    (if entry.intersects prev_entry then [max prev_entry.address entry.address] else []) ++
      checkEntry entry rest

/-- `_check_collisions(old_entries, new_entries)` from `commands.py`,
returning the reported offsets in emission order. -/
def _check_collisions (old_entries : List WriteEntry) : List WriteEntry → List Int
  | [] => []
  | entry :: rest => checkEntry entry old_entries ++ _check_collisions old_entries rest

/-- `write(data, state)` from `commands.py`: build the entries, route them
to the patch table (patch mode, no collision check) or the main write table
(with collision warnings), and advance the pointer. -/
def write (data : List Nat) (ctx : Context) (store : Store) (st : CompilerState) :
    Store × List Int × Except String CompilerState :=
  match WriteEntryList data ctx st with
  | .error e => (store, [], .error e)
  | .ok entries =>
    if st.patch_mode then
      ({ store with patch_table := store.patch_table ++ entries }, [],
       .ok { st with pointer := st.pointer + ((entries.map (·.data.length)).sum : Int) })
    else
      ({ store with write_table := store.write_table ++ entries },
       _check_collisions store.write_table entries,
       .ok { st with pointer := st.pointer + ((entries.map (·.data.length)).sum : Int) })

/-- `loc(address, state)` from `commands.py`. -/
def loc (address : Int) (store : Store) (st : CompilerState) :
    Store × List Int × Except String CompilerState :=
  (store, [], .ok { st with gci_pointer_mode := false, patch_mode := false, pointer := address })

/-- `gci(address, state)` from `commands.py`. -/
def gci (address : Int) (store : Store) (st : CompilerState) :
    Store × List Int × Except String CompilerState :=
  (store, [], .ok { st with gci_pointer_mode := true, patch_mode := false, pointer := address })

/-- `patch(address, state)` from `commands.py`. -/
def patch (address : Int) (store : Store) (st : CompilerState) :
    Store × List Int × Except String CompilerState :=
  (store, [], .ok { st with gci_pointer_mode := true, patch_mode := true, pointer := address })

/-- `add(amount, state)` from `commands.py`. -/
def add (amount : Int) (store : Store) (st : CompilerState) :
    Store × List Int × Except String CompilerState :=
  (store, [], .ok { st with pointer := st.pointer + amount })

/-- `fill(count, pattern, state)` from `commands.py`: `pattern * count`
then `write`. -/
def fill (count : Int) (pattern : List Nat) (ctx : Context) (store : Store)
    (st : CompilerState) : Store × List Int × Except String CompilerState :=
  write (List.flatten (List.replicate count.toNat pattern)) ctx store st

/-- `macro(name, state)` from `commands.py`: refuse nested definitions, then
open capture and bind an empty body in the shared dict (the redefinition
warning is log output only and is not modelled). -/
def macroStart (name : String) (store : Store) (st : CompilerState) :
    Store × List Int × Except String CompilerState :=
  if st.current_macro ≠ "" then
    (store, [], .error "Cannot define a macro inside another macro")
  else
    ({ store with macro_files := (name, []) :: store.macro_files }, [],
     .ok { st with current_macro := name })

/-- `macroend(state)` from `commands.py`. -/
def macroEnd (store : Store) (st : CompilerState) :
    Store × List Int × Except String CompilerState :=
  if st.current_macro ≠ "" then (store, [], .ok { st with current_macro := "" })
  else (store, [], .error "!macroend is used without a !macro preceding it")

/-- The argument validation loop of `blockorder` (`commands.py`): the first
out-of-range value determines the error. -/
def blockorderCheck : List Int → Option String
  | [] => none
  | b :: rest =>
    if b < 0 then some "Block number cannot be negative"
    else if 9 < b then some "Block number cannot be greater than 9"
    else blockorderCheck rest

/-- `blockorder(b0..b9, state)` from `commands.py`. -/
def blockorder (bs : List Int) (store : Store) (st : CompilerState) :
    Store × List Int × Except String CompilerState :=
  match blockorderCheck bs with
  | some e => (store, [], .error e)
  | none => (store, [], .ok { st with block_order := bs })

/-- `echo(message, state)` from `commands.py`: log output only. -/
def echo (_message : String) (store : Store) (st : CompilerState) :
    Store × List Int × Except String CompilerState :=
  (store, [], .ok st)

/-- The `_FUNCS` dispatch of `commands.py` for every command except
`callmacro`, which re-enters the line interpreter and is handled by
`runLines` (this case is unreachable from `runLines`). -/
def execCommand (ctx : Context) : Command → Store → CompilerState →
    Store × List Int × Except String CompilerState
  | .loc a, store, st => loc a store st
  | .gci a, store, st => gci a store st
  | .patch a, store, st => patch a store st
  | .add n, store, st => add n store st
  | .write d, store, st => write d ctx store st
  | .fill c p, store, st => fill c p ctx store st
  | .macroStart n, store, st => macroStart n store st
  | .macroEnd, store, st => macroEnd store st
  | .blockorder bs, store, st => blockorder bs store st
  | .echo m, store, st => echo m store st
  | .callMacro _ _, store, _ => (store, [], .error "callmacro is interpreted by runLines")

/-- The command-execution driver: each line runs on a shallow copy of the
state (scalars per-copy, `Store` shared), warnings accumulate in order, and
an exception aborts the remaining lines while keeping the store's
mutations.  `callmacro(name, count, state)` (`commands.py`) refuses calls
during macro capture, rejects a missing name (Python `KeyError`) or an
empty body, and otherwise runs the stored body `count` times in sequence
before the remaining lines — expressed here by expanding the repetition
into the work list, which threads state identically.  The fuel pays one
unit per interpreter step; Python has no such bound (and diverges on a
self-invoking macro), so every theorem supplies sufficient fuel. -/
def runLines : Nat → Context → List MGCLine → Store → CompilerState →
    Store × List Int × Except String CompilerState
  | _, _, [], store, st => (store, [], .ok st)
  | 0, _, _ :: _, store, _ => (store, [], .error "maximum recursion depth exceeded")
  | fuel + 1, ctx, line :: rest, store, st =>
    match line.command with
    | .callMacro name count =>
      if st.current_macro ≠ "" then
        (store, [], .error "Cannot call a macro from within another macro")
      else
        match store.macro_files.lookup name with
        | none => (store, [], .error ("KeyError: " ++ name))
        | some [] => (store, [], .error ("Macro " ++ name ++ " is undefined"))
        | some body =>
          runLines fuel ctx (List.flatten (List.replicate count body) ++ rest) store st
    | cmd =>
      match execCommand ctx cmd store st with
      | (store', w, .error e) => (store', w, .error e)
      | (store', w, .ok st') =>
        match runLines fuel ctx rest store' st' with
        | (store'', w', res) => (store'', w ++ w', res)

end MGC

namespace MGC

/-! ### C4 — collision detection -/

set_option maxHeartbeats 1000000 in
/-- C4 counterexample: a zero-length write entry (reachable in gci mode via
`!fill 0 <pattern>`) makes `intersects` report `true` against an entry whose
range merely contains its start address, even though the half-open ranges
share no byte. -/
theorem intersects_zero_length_counterexample :
    WriteEntry.intersects ⟨0x10, List.replicate 16 0xAA, ⟨"main.mgc", 0⟩⟩
      ⟨0x18, [], ⟨"main.mgc", 0⟩⟩ = true ∧
    ¬ rangesOverlap ⟨0x10, List.replicate 16 0xAA, ⟨"main.mgc", 0⟩⟩
      ⟨0x18, [], ⟨"main.mgc", 0⟩⟩ := by
  refine ⟨by decide, ?_⟩
  rintro ⟨i, ⟨-, -⟩, h3, h4⟩
  simp at h3 h4
  omega

set_option maxHeartbeats 1000000 in
/-- C4 (amended): for write entries with nonempty payloads, `intersects` is
true iff the half-open byte ranges overlap; consequently writing
`[0x10,0x20)` then `[0x18,0x28)` to the main table emits exactly one
collision warning reporting offset `0x18` (the maximum of the two start
addresses), while writing `[0x10,0x20)` then `[0x20,0x30)` emits none.
(For a zero-length entry the equivalence fails: see the counterexample.) -/
theorem intersects_iff_overlap :
    (∀ e1 e2 : WriteEntry, e1.data ≠ [] → e2.data ≠ [] →
      (e1.intersects e2 = true ↔ rangesOverlap e1 e2)) ∧
    (runLines 10 ⟨"main.mgc", 4⟩
      [⟨1, .gci 0x10⟩, ⟨2, .write (List.replicate 16 0xAA)⟩,
       ⟨3, .gci 0x18⟩, ⟨4, .write (List.replicate 16 0xBB)⟩]
      ⟨[], [], []⟩ ⟨0, false, false, "", []⟩).2.1 = [0x18] ∧
    (runLines 10 ⟨"main.mgc", 4⟩
      [⟨1, .gci 0x10⟩, ⟨2, .write (List.replicate 16 0xAA)⟩,
       ⟨3, .gci 0x20⟩, ⟨4, .write (List.replicate 16 0xBB)⟩]
      ⟨[], [], []⟩ ⟨0, false, false, "", []⟩).2.1 = [] := by
  refine ⟨?_, by decide, by decide⟩
  intro e1 e2 h1 h2
  have hl1 : 0 < e1.data.length := List.length_pos.mpr h1
  have hl2 : 0 < e2.data.length := List.length_pos.mpr h2
  simp only [WriteEntry.intersects, decide_eq_true_eq]
  constructor
  · rintro (⟨ha, hb⟩ | ⟨ha, hb⟩)
    · exact ⟨e2.address, ⟨ha, by omega⟩, ⟨le_refl _, by omega⟩⟩
    · exact ⟨e1.address, ⟨le_refl _, by omega⟩, ⟨ha, by omega⟩⟩
  · rintro ⟨i, ⟨h1a, h1b⟩, h2a, h2b⟩
    omega

/-- Witness for the amended C4 at two concrete overlapping entries. -/
theorem intersects_iff_overlap_witness :
    WriteEntry.intersects ⟨0x10, List.replicate 16 0xAA, ⟨"m", 0⟩⟩
      ⟨0x18, List.replicate 16 0xBB, ⟨"m", 1⟩⟩ = true ↔
    rangesOverlap ⟨0x10, List.replicate 16 0xAA, ⟨"m", 0⟩⟩
      ⟨0x18, List.replicate 16 0xBB, ⟨"m", 1⟩⟩ :=
  intersects_iff_overlap.1 _ _ (by decide) (by decide)

/-! ### C5 — patch mode -/

/-- The bytearray slice assignment
`raw_bytes[address:address+len(data)] = data` of the `compile` epilogue,
for an in-bounds patch entry. -/
def applyPatch (buf : List Nat) (address : Nat) (data : List Nat) : List Nat :=
  buf.take address ++ data ++ buf.drop (address + data.length)

/-- The `for address, data in patch_table` loop of `compile`
(`compiler.py` lines 96–97). -/
def applyPatchTable (patches : List (Nat × List Nat)) (buf : List Nat) : List Nat :=
  patches.foldl (fun b p => applyPatch b p.1 p.2) buf

/-- The `compile` epilogue (`compiler.py` lines 92–98): reorder the blocks
if a block order was set (`reorder_blocks` belongs to the external container
object `meleegci.py`, not under src, and is abstracted as a function
parameter), and only then write the patch table into the buffer. -/
def compileEpilogue (reorder : List Nat → List Nat) (block_order : List Int)
    (patches : List (Nat × List Nat)) (buf : List Nat) : List Nat :=
  applyPatchTable patches (if block_order ≠ [] then reorder buf else buf)

theorem applyPatch_get (buf : List Nat) (addr : Nat) (data : List Nat)
    (h : addr + data.length ≤ buf.length) (i : Nat) (hi : i < data.length) :
    (applyPatch buf addr data).get? (addr + i) = data.get? i := by
  unfold applyPatch
  have hta : (buf.take addr).length = addr := by
    rw [List.length_take]
    omega
  rw [List.append_assoc, List.get?_append_right (by omega), hta,
    Nat.add_sub_cancel_left, List.get?_append hi]

set_option maxHeartbeats 1000000 in
/-- C5: a write executed in patch mode appends its entry to the patch table,
leaves the main write table untouched, performs no collision check (no
collision warning can be emitted), and the compile epilogue applies
patch-table entries to the container buffer only after block reordering —
so the bytes of the last patch entry survive in the final buffer no matter
what the reorder step did. -/
theorem patch_write_deferred :
    (∀ (data : List Nat) (ctx : Context) (store : Store) (st : CompilerState),
      st.patch_mode = true → st.gci_pointer_mode = true → 0 ≤ st.pointer →
      st.pointer + (data.length : Int) ≤ GCI_DATA_LEN →
      write data ctx store st =
        ({ store with patch_table := store.patch_table ++ [⟨st.pointer, data, ctx⟩] },
         [], .ok { st with pointer := st.pointer + (data.length : Int) })) ∧
    (∀ (reorder : List Nat → List Nat) (block_order : List Int)
       (patches : List (Nat × List Nat)) (buf : List Nat) (addr : Nat) (data : List Nat),
      addr + data.length ≤
        (applyPatchTable patches (if block_order ≠ [] then reorder buf else buf)).length →
      ∀ i < data.length,
        (compileEpilogue reorder block_order (patches ++ [(addr, data)]) buf).get? (addr + i) =
          data.get? i) := by
  constructor
  · intro data ctx store st hpm hgm hp hbound
    unfold write WriteEntryList
    rw [hgm]
    simp only [if_true]
    rw [if_neg (by omega), if_neg (by omega)]
    simp only
    rw [hpm]
    simp only [if_true, List.map_cons, List.map_nil, List.sum_cons, List.sum_nil]
    norm_num
  · intro reorder block_order patches buf addr data hbound i hi
    unfold compileEpilogue applyPatchTable
    rw [List.foldl_append]
    simp only [List.foldl_cons, List.foldl_nil]
    exact applyPatch_get _ addr data hbound i hi

set_option maxHeartbeats 400000 in
/-- Witness for C5: a concrete patch-mode write and a concrete epilogue in
which reordering reverses the buffer yet the patch bytes land intact. -/
theorem patch_write_deferred_witness :
    write [0xAA, 0xBB] ⟨"p.mgc", 3⟩ ⟨[], [], []⟩ ⟨0x40, true, true, "", []⟩ =
      (⟨[], [⟨0x40, [0xAA, 0xBB], ⟨"p.mgc", 3⟩⟩], []⟩, [],
       .ok ⟨0x42, true, true, "", []⟩) ∧
    (compileEpilogue List.reverse [1] ([] ++ [(2, [7, 9])]) (List.replicate 8 0)).get? (2 + 1) =
      (some 9 : Option Nat) := by
  constructor
  · exact patch_write_deferred.1 [0xAA, 0xBB] ⟨"p.mgc", 3⟩ ⟨[], [], []⟩
      ⟨0x40, true, true, "", []⟩ rfl rfl (by norm_num) (by norm_num [GCI_DATA_LEN])
  · have h := patch_write_deferred.2 List.reverse [1] [] (List.replicate 8 0) 2 [7, 9]
      (by decide) 1 (by decide)
    exact h.trans (by decide)

end MGC

namespace MGC

/-! ### C6 — macro expansion -/

set_option maxHeartbeats 1000000 in
/-- C6: invoking a defined macro with count `n` executes the macro's
recorded command list `n` times in sequence, with the compiler state
threaded linearly across iterations (the interpreter continues from the
repeated body, so pointer changes persist); in particular, a macro recorded
with two `write` commands (definition-site lines 10 and 11) invoked with
count 3 from line 7 produces six WriteEntries in invocation order, each
attributed to the `callmacro` site's context (`f.mgc` line 7), with the
pointer advanced across all iterations. -/
theorem callmacro_expansion :
    (∀ (f : Nat) (ctx : Context) (lc : Int) (name : String) (count : Nat)
       (body : List MGCLine) (store : Store) (st : CompilerState),
      st.current_macro = "" → store.macro_files.lookup name = some body → body ≠ [] →
      runLines (f + 1) ctx [⟨lc, .callMacro name count⟩] store st =
        runLines f ctx (List.flatten (List.replicate count body)) store st) ∧
    (runLines 10 ⟨"f.mgc", 7⟩ [⟨7, .callMacro "mm" 3⟩]
       ⟨[], [], [("mm", [⟨10, .write [0xAA]⟩, ⟨11, .write [0xBB, 0xCC]⟩])]⟩
       ⟨0x100, true, false, "", []⟩ =
      (⟨[⟨0x100, [0xAA], ⟨"f.mgc", 7⟩⟩, ⟨0x101, [0xBB, 0xCC], ⟨"f.mgc", 7⟩⟩,
         ⟨0x103, [0xAA], ⟨"f.mgc", 7⟩⟩, ⟨0x104, [0xBB, 0xCC], ⟨"f.mgc", 7⟩⟩,
         ⟨0x106, [0xAA], ⟨"f.mgc", 7⟩⟩, ⟨0x107, [0xBB, 0xCC], ⟨"f.mgc", 7⟩⟩],
        [], [("mm", [⟨10, .write [0xAA]⟩, ⟨11, .write [0xBB, 0xCC]⟩])]⟩,
       [], .ok ⟨0x109, true, false, "", []⟩)) := by
  constructor
  · intro f ctx lc name count body store st hcm hlook hbody
    obtain ⟨b0, brest, rfl⟩ : ∃ b0 brest, body = b0 :: brest := by
      cases body with
      | nil => exact absurd rfl hbody
      | cons b0 brest => exact ⟨b0, brest, rfl⟩
    simp only [runLines, hcm, hlook]
    norm_num
  · decide

/-- Witness for C6's general part: a single-count invocation expands to the
stored body. -/
theorem callmacro_expansion_witness :
    runLines 3 ⟨"f.mgc", 7⟩ [⟨7, .callMacro "mm" 1⟩]
      ⟨[], [], [("mm", [⟨10, .write [0xAA]⟩, ⟨11, .write [0xBB, 0xCC]⟩])]⟩
      ⟨0x100, true, false, "", []⟩ =
    runLines 2 ⟨"f.mgc", 7⟩
      (List.flatten (List.replicate 1 [⟨10, .write [0xAA]⟩, ⟨11, .write [0xBB, 0xCC]⟩]))
      ⟨[], [], [("mm", [⟨10, .write [0xAA]⟩, ⟨11, .write [0xBB, 0xCC]⟩])]⟩
      ⟨0x100, true, false, "", []⟩ :=
  callmacro_expansion.1 2 ⟨"f.mgc", 7⟩ 7 "mm" 1
    [⟨10, .write [0xAA]⟩, ⟨11, .write [0xBB, 0xCC]⟩] _ _ rfl (by decide) (by decide)

/-! ### C7 — shallow copy and error rollback -/

/-- Prefix/suffix growth of the shared containers under one command. -/
theorem execCommand_grows (ctx : Context) (cmd : Command) (store : Store)
    (st : CompilerState) :
    store.write_table <+: (execCommand ctx cmd store st).1.write_table ∧
    store.patch_table <+: (execCommand ctx cmd store st).1.patch_table := by
  cases cmd with
  | write d =>
    simp only [execCommand, write]
    cases WriteEntryList d ctx st with
    | error e => exact ⟨List.prefix_rfl, List.prefix_rfl⟩
    | ok entries =>
      simp only
      by_cases hpm : st.patch_mode = true
      · rw [hpm]
        simp only [if_true]
        exact ⟨List.prefix_rfl, List.prefix_append _ _⟩
      · rw [Bool.not_eq_true] at hpm
        rw [hpm]
        simp only [Bool.false_eq_true, if_false]
        exact ⟨List.prefix_append _ _, List.prefix_rfl⟩
  | fill c p =>
    simp only [execCommand, fill, write]
    cases WriteEntryList (List.flatten (List.replicate c.toNat p)) ctx st with
    | error e => exact ⟨List.prefix_rfl, List.prefix_rfl⟩
    | ok entries =>
      simp only
      by_cases hpm : st.patch_mode = true
      · rw [hpm]
        simp only [if_true]
        exact ⟨List.prefix_rfl, List.prefix_append _ _⟩
      · rw [Bool.not_eq_true] at hpm
        rw [hpm]
        simp only [Bool.false_eq_true, if_false]
        exact ⟨List.prefix_append _ _, List.prefix_rfl⟩
  | macroStart n =>
    simp only [execCommand, macroStart]
    by_cases h : st.current_macro ≠ ""
    · rw [if_pos h]
      exact ⟨List.prefix_rfl, List.prefix_rfl⟩
    · rw [if_neg h]
      exact ⟨List.prefix_rfl, List.prefix_rfl⟩
  | blockorder bs =>
    simp only [execCommand, blockorder]
    cases blockorderCheck bs <;> exact ⟨List.prefix_rfl, List.prefix_rfl⟩
  | macroEnd =>
    simp only [execCommand, macroEnd]
    by_cases h : st.current_macro ≠ ""
    · rw [if_pos h]
      exact ⟨List.prefix_rfl, List.prefix_rfl⟩
    · rw [if_neg h]
      exact ⟨List.prefix_rfl, List.prefix_rfl⟩
  | loc a => exact ⟨List.prefix_rfl, List.prefix_rfl⟩
  | gci a => exact ⟨List.prefix_rfl, List.prefix_rfl⟩
  | patch a => exact ⟨List.prefix_rfl, List.prefix_rfl⟩
  | add n => exact ⟨List.prefix_rfl, List.prefix_rfl⟩
  | echo m => exact ⟨List.prefix_rfl, List.prefix_rfl⟩
  | callMacro n c => exact ⟨List.prefix_rfl, List.prefix_rfl⟩

/-- Unfolding step of `runLines` for any command other than `callmacro`. -/
theorem runLines_cons_not_call (n : Nat) (ctx : Context) (ln : Int) (cmd : Command)
    (rest : List MGCLine) (store : Store) (st : CompilerState)
    (hnc : ∀ name count, cmd ≠ .callMacro name count) :
    runLines (n + 1) ctx (⟨ln, cmd⟩ :: rest) store st =
      match execCommand ctx cmd store st with
      | (store', w, .error e) => (store', w, .error e)
      | (store', w, .ok st') =>
        match runLines n ctx rest store' st' with
        | (store'', w', res) => (store'', w ++ w', res) := by
  cases cmd with
  | callMacro a b => exact absurd rfl (hnc a b)
  | _ => rfl

set_option maxHeartbeats 1000000 in
/-- C7 (amended): the shallow copy taken at each command boundary protects
only the scalar fields; the shared tables survive a fatal error with
every previously recorded entry intact — the pre-command write and patch
tables are always a prefix of the post-error tables, but a failing
composite command (such as a macro invocation that errors midway) may
leave newly appended entries behind. -/
theorem runLines_error_keeps_tables :
    ∀ (fuel : Nat) (ctx : Context) (lines : List MGCLine) (store : Store)
      (st : CompilerState) (store' : Store) (w : List Int) (e : String),
      runLines fuel ctx lines store st = (store', w, .error e) →
      store.write_table <+: store'.write_table ∧
      store.patch_table <+: store'.patch_table := by
  intro fuel
  induction fuel with
  | zero =>
    intro ctx lines store st store' w e h
    cases lines with
    | nil =>
      simp only [runLines, Prod.mk.injEq] at h
      exact absurd h.2.2 (by simp)
    | cons line rest =>
      simp only [runLines, Prod.mk.injEq] at h
      obtain ⟨rfl, -, -⟩ := h
      exact ⟨List.prefix_rfl, List.prefix_rfl⟩
  | succ n ih =>
    intro ctx lines store st store' w e h
    cases lines with
    | nil =>
      simp only [runLines, Prod.mk.injEq] at h
      exact absurd h.2.2 (by simp)
    | cons line rest =>
      obtain ⟨ln, cmd⟩ := line
      by_cases hcall : ∃ name count, cmd = .callMacro name count
      · obtain ⟨name, count, rfl⟩ := hcall
        simp only [runLines] at h
        by_cases hcm : st.current_macro ≠ ""
        · rw [if_pos hcm] at h
          simp only [Prod.mk.injEq] at h
          obtain ⟨rfl, -, -⟩ := h
          exact ⟨List.prefix_rfl, List.prefix_rfl⟩
        · rw [if_neg hcm] at h
          cases hlook : store.macro_files.lookup name with
          | none =>
            rw [hlook] at h
            simp only [Prod.mk.injEq] at h
            obtain ⟨rfl, -, -⟩ := h
            exact ⟨List.prefix_rfl, List.prefix_rfl⟩
          | some body =>
            rw [hlook] at h
            cases body with
            | nil =>
              simp only [Prod.mk.injEq] at h
              obtain ⟨rfl, -, -⟩ := h
              exact ⟨List.prefix_rfl, List.prefix_rfl⟩
            | cons b0 brest =>
              simp only at h
              exact ih ctx _ store st store' w e h
      · push_neg at hcall
        rw [runLines_cons_not_call n ctx ln cmd rest store st hcall] at h
        rcases hE : execCommand ctx cmd store st with ⟨store1, w1, res1⟩
        rw [hE] at h
        have hgrow := execCommand_grows ctx cmd store st
        rw [hE] at hgrow
        cases res1 with
        | error e1 =>
          simp only [Prod.mk.injEq] at h
          obtain ⟨rfl, -, -⟩ := h
          exact hgrow
        | ok st1 =>
          simp only at h
          rcases hR : runLines n ctx rest store1 st1 with ⟨store2, w2, res2⟩
          rw [hR] at h
          simp only [Prod.mk.injEq] at h
          obtain ⟨rfl, -, hres⟩ := h
          cases res2 with
          | ok st2 => exact absurd hres (by simp)
          | error e2 =>
            have htail := ih ctx rest store1 st1 store2 w2 e2 hR
            exact ⟨hgrow.1.trans htail.1, hgrow.2.trans htail.2⟩

set_option maxHeartbeats 1000000 in
/-- C7 counterexample: a macro whose first write succeeds and whose later
write overruns the container fails with a fatal error, yet the write table
observed before the `callmacro` command now contains the first iteration's
entry — the shallow `CompilerState.copy()` shares the table object, so the
partial update leaks. -/
theorem callmacro_error_leaks_partial_write :
    runLines 10 ⟨"main.mgc", 5⟩ [⟨5, .callMacro "m" 1⟩]
      ⟨[], [], [("m", [⟨10, .write [0xAA]⟩, ⟨11, .gci 0x20000⟩, ⟨12, .write [0xBB]⟩])]⟩
      ⟨0, true, false, "", []⟩ =
      (⟨[⟨0, [0xAA], ⟨"main.mgc", 5⟩⟩], [],
        [("m", [⟨10, .write [0xAA]⟩, ⟨11, .gci 0x20000⟩, ⟨12, .write [0xBB]⟩])]⟩,
       [], .error "Attempting to write past the end of the GCI") ∧
    ([⟨0, [0xAA], ⟨"main.mgc", 5⟩⟩] : List WriteEntry) ≠ [] := by
  exact ⟨by decide, by decide⟩

set_option maxHeartbeats 1000000 in
/-- Witness for the amended C7 theorem at the erroring macro run: the
pre-command tables are a prefix of the post-error tables. -/
theorem runLines_error_keeps_tables_witness :
    (⟨[], [],
      [("m", [⟨10, .write [0xAA]⟩, ⟨11, .gci 0x20000⟩, ⟨12, .write [0xBB]⟩])]⟩ :
        Store).write_table <+:
      (⟨[⟨0, [0xAA], ⟨"main.mgc", 5⟩⟩], [],
        [("m", [⟨10, .write [0xAA]⟩, ⟨11, .gci 0x20000⟩, ⟨12, .write [0xBB]⟩])]⟩ :
          Store).write_table ∧
    (⟨[], [],
      [("m", [⟨10, .write [0xAA]⟩, ⟨11, .gci 0x20000⟩, ⟨12, .write [0xBB]⟩])]⟩ :
        Store).patch_table <+:
      (⟨[⟨0, [0xAA], ⟨"main.mgc", 5⟩⟩], [],
        [("m", [⟨10, .write [0xAA]⟩, ⟨11, .gci 0x20000⟩, ⟨12, .write [0xBB]⟩])]⟩ :
          Store).patch_table :=
  runLines_error_keeps_tables 10 ⟨"main.mgc", 5⟩ [⟨5, .callMacro "m" 1⟩]
    ⟨[], [], [("m", [⟨10, .write [0xAA]⟩, ⟨11, .gci 0x20000⟩, ⟨12, .write [0xBB]⟩])]⟩
    ⟨0, true, false, "", []⟩
    ⟨[⟨0, [0xAA], ⟨"main.mgc", 5⟩⟩], [],
      [("m", [⟨10, .write [0xAA]⟩, ⟨11, .gci 0x20000⟩, ⟨12, .write [0xBB]⟩])]⟩
    [] "Attempting to write past the end of the GCI" (by decide)

end MGC

namespace MGC

/-! ### builder.py — `!begin` / `!end` preprocessing (C8)

`_preprocess_begin_end` (`builder.py` lines 128–139) scans for the first
line whose stripped text is `!begin` and, scanning from the end, the last
line whose stripped text is `!end`.  It contains no `raise` and returns the
pair unconditionally.  The two `for ... break` loops are embedded as a
first-match scan carrying the running `line_number`; Python's
`str.strip()` is embedded as dropping whitespace characters from both
ends. -/

/-- The characters of Python's `string.whitespace` / default `strip()`. -/
def pyWhitespace : List Char := [' ', '\t', '\n', '\r', '\x0b', '\x0c']

/-- Whitespace test used by `strip()` and `string.whitespace` removal. -/
def pyIsSpace (c : Char) : Bool :=
  c = ' ' ∨ c = '\t' ∨ c = '\n' ∨ c = '\r' ∨ c = '\x0b' ∨ c = '\x0c'

/-- Python `line.strip()`. -/
def pyStrip (s : String) : String :=
  String.mk (((s.data.dropWhile pyIsSpace).reverse.dropWhile pyIsSpace).reverse)

/-- One `for line_number, line in enumerate(...): if p(line): ... break`
scan: the first index whose line satisfies the predicate. -/
def findLineIdx (p : String → Bool) : List String → Nat → Option Nat
  | [], _ => none
  | line :: rest, line_number =>
    if p line then some line_number else findLineIdx p rest (line_number + 1)

/-- `_preprocess_begin_end(filepath, filedata)` from `builder.py`. -/
def _preprocess_begin_end (filedata : List String) : Nat × Nat :=
  let start_line :=
    match findLineIdx (fun line => pyStrip line == "!begin") filedata 0 with
    | some line_number => line_number + 1
    | none => 0
  let end_line :=
    match findLineIdx (fun line => pyStrip line == "!end") filedata.reverse 0 with
    | some line_number => filedata.length - line_number - 1
    | none => filedata.length
  (start_line, end_line)

/-- A failed scan means no line matches. -/
theorem findLineIdx_none {p : String → Bool} :
    ∀ (xs : List String) (k : Nat), findLineIdx p xs k = none → ∀ x ∈ xs, p x = false := by
  intro xs
  induction xs with
  | nil => intro k _ x hx; exact absurd hx (List.not_mem_nil x)
  | cons a rest ih =>
    intro k h x hx
    simp only [findLineIdx] at h
    by_cases ha : p a = true
    · rw [if_pos ha] at h
      exact absurd h (by simp)
    · rw [Bool.not_eq_true] at ha
      rw [if_neg (by simp [ha])] at h
      rcases List.mem_cons.mp hx with rfl | hx
      · exact ha
      · exact ih (k + 1) h x hx

/-- A successful scan decomposes the list at the first matching line. -/
theorem findLineIdx_some {p : String → Bool} :
    ∀ (xs : List String) (k n : Nat), findLineIdx p xs k = some n →
      ∃ pre x post, xs = pre ++ x :: post ∧ k + pre.length = n ∧ p x = true ∧
        ∀ y ∈ pre, p y = false := by
  intro xs
  induction xs with
  | nil => intro k n h; exact absurd h (by simp [findLineIdx])
  | cons a rest ih =>
    intro k n h
    simp only [findLineIdx] at h
    by_cases ha : p a = true
    · rw [if_pos ha] at h
      injection h with h
      exact ⟨[], a, rest, rfl, by simpa using h, ha, by simp⟩
    · rw [Bool.not_eq_true] at ha
      rw [if_neg (by simp [ha])] at h
      obtain ⟨pre, x, post, rfl, hlen, hx, hpre⟩ := ih (k + 1) n h
      refine ⟨a :: pre, x, post, rfl, by simp only [List.length_cons]; omega, hx, ?_⟩
      intro y hy
      rcases List.mem_cons.mp hy with rfl | hy
      · exact ha
      · exact hpre y hy

/-- C8 counterexample: a file whose `!end` precedes its `!begin` is not
rejected — `_preprocess_begin_end` (which contains no failure path at all)
silently returns the inverted region `(2, 0)`. -/
theorem begin_end_no_error_counterexample :
    _preprocess_begin_end ["!end", "!begin"] = (2, 0) := by decide

set_option maxHeartbeats 1000000 in
/-- C8 (amended): when a script contains a `!begin` line and every `!end`
line precedes the first `!begin`, preprocessing does not fail: it returns
normally with `start_line > end_line`, a silently inverted (hence empty)
effective region. -/
theorem begin_end_inverted (filedata : List String) (i : Nat)
    (hb : findLineIdx (fun line => pyStrip line == "!begin") filedata 0 = some i)
    (hsome : ∃ l ∈ filedata, (pyStrip l == "!end") = true)
    (hafter : ∀ l ∈ filedata.drop i, (pyStrip l == "!end") = false) :
    (_preprocess_begin_end filedata).2 < (_preprocess_begin_end filedata).1 := by
  simp only [_preprocess_begin_end, hb]
  rcases hrev : findLineIdx (fun line => pyStrip line == "!end") filedata.reverse 0 with _ | j
  · obtain ⟨l, hl, hlp⟩ := hsome
    have := findLineIdx_none filedata.reverse 0 hrev l (List.mem_reverse.mpr hl)
    rw [hlp] at this
    exact absurd this (by simp)
  · obtain ⟨pre, x, post, hdecomp, hlen, hx, -⟩ := findLineIdx_some filedata.reverse 0 j hrev
    have hfd : filedata = post.reverse ++ x :: pre.reverse := by
      rw [← List.reverse_reverse filedata, hdecomp]
      simp [List.reverse_append]
    have hlenf : filedata.length = post.length + pre.length + 1 := by
      rw [hfd]
      simp only [List.length_append, List.length_reverse, List.length_cons]
      omega
    have hpost : post.length ≤ i := by
      by_contra hgt
      push_neg at hgt
      have hx2 : x ∈ filedata.drop i := by
        rw [hfd, List.drop_append_of_le_length (by simp only [List.length_reverse]; omega)]
        exact List.mem_append_right _ (List.mem_cons_self x _)
      have := hafter x hx2
      rw [hx] at this
      exact absurd this (by simp)
    have hj : j = pre.length := by omega
    have hgoal : filedata.length - j - 1 < i + 1 := by omega
    exact hgoal

/-- Witness for the amended C8 on `["!end", "!begin"]`. -/
theorem begin_end_inverted_witness :
    (_preprocess_begin_end ["!end", "!begin"]).2 <
      (_preprocess_begin_end ["!end", "!begin"]).1 :=
  begin_end_inverted ["!end", "!begin"] 1 (by decide)
    ⟨"!end", by simp, by decide⟩
    (by
      intro l hl
      simp only [List.drop_succ_cons, List.drop_zero, List.mem_singleton] at hl
      subst hl
      decide)

end MGC

namespace MGC

/-! ### lineparser.py / type_validator.py — raw data lines (C9)

`parse_opcodes` (`lineparser.py`) classifies a line by its first character.
The hex and `%`-binary branches (lines 61–90) pad a misaligned payload to
the nearest byte with a non-fatal `WARNING`.  The macro (`+`) and command
(`!`) branches (lines 92–138) are outside every claim and are represented
opaquely as `Operation.OTHER`.  The refactored `type_validator.py` instead
rejects misaligned payloads with a fatal `BuildError`.

The success of Python's `int(s, base)` is modelled as "nonempty and all
digits of the base" (`int`'s underscore-grouping leniency is not
modelled), and `bytes.fromhex`'s space-skipping is modelled as a filter. -/

/-- `string.hexdigits` membership. -/
def isHexDigitPy (c : Char) : Bool :=
  c.isDigit ∨ ('a' ≤ c ∧ c ≤ 'f') ∨ ('A' ≤ c ∧ c ≤ 'F')

/-- Binary digit. -/
def isBinDigitPy (c : Char) : Bool := c = '0' ∨ c = '1'

/-- `script_line.translate(dict.fromkeys(map(ord, string.whitespace)))`:
remove all whitespace characters. -/
def removeWhitespacePy (cs : List Char) : List Char :=
  cs.filter (fun c => !(pyIsSpace c))

/-- The parsed-line items of `lineparser.py` that the claims touch. -/
inductive Operation where
  | HEX (data : List Char)
  | BIN (data : List Char)
  | WARNING (message : String)
  | ERROR (message : String)
  | OTHER (line : List Char)
deriving DecidableEq

/-- `SYNTAX_ERROR` from `lineparser.py`. -/
def SYNTAX_ERROR : Operation := .ERROR "Invalid syntax"

/-- `parse_opcodes(script_line)` from `lineparser.py` (lines 47–145), with
the global alias dict passed explicitly.  An alias substitution that empties
the line would make Python crash on `script_line[0]` (`IndexError`). -/
def parse_opcodes (aliases : List (String × String)) (script_line : String) :
    List Operation :=
  if script_line = "" then []
  else
    let aliased_line := aliases.foldl
      (fun acc av =>
        if (script_line.splitOn av.1).length > 1 then script_line.replace av.1 av.2
        else acc)
      script_line
    match aliased_line.data with
    | [] => [.ERROR "IndexError: string index out of range"]
    | c :: rest =>
      if isHexDigitPy c then
        let cs := removeWhitespacePy (c :: rest)
        if ¬cs.isEmpty ∧ cs.all isHexDigitPy then
          if cs.length % 2 > 0 then
            [.WARNING "Hex data is not byte-aligned; padding to the nearest byte",
             .HEX ('0' :: cs)]
          else [.HEX cs]
        else [SYNTAX_ERROR]
      else if (c :: rest).length = 1 then [SYNTAX_ERROR]
      else if c = '%' then
        let cs := removeWhitespacePy rest
        if ¬cs.isEmpty ∧ cs.all isBinDigitPy then
          if cs.length % 8 > 0 then
            [.WARNING "Binary data is not byte-aligned; padding to the nearest byte",
             .BIN (List.replicate (8 - cs.length % 8) '0' ++ cs)]
          else [.BIN cs]
        else [SYNTAX_ERROR]
      else if c = '+' ∨ c = '!' then [.OTHER (c :: rest)]
      else [SYNTAX_ERROR]

/-- Value of a hex digit. -/
def hexDigitVal (c : Char) : Nat :=
  if c.isDigit then c.toNat - 48
  else if 'a' ≤ c then c.toNat - 87
  else c.toNat - 55

/-- `bytes.fromhex` digit pairing. -/
def hexPairsToBytes : List Char → List Nat
  | a :: b :: rest => (16 * hexDigitVal a + hexDigitVal b) :: hexPairsToBytes rest
  | _ => []

/-- `_hex_string(untyped)` from `type_validator.py`: `bytes.fromhex`
(spaces skipped, even digit count required) or the fatal `BuildError`. -/
def val_hex_string (untyped : List Char) : Except String (List Nat) :=
  let s := untyped.filter (fun c => c ≠ ' ')
  if s.all isHexDigitPy ∧ s.length % 2 = 0 then .ok (hexPairsToBytes s)
  else .error "Hex is not byte-aligned or contains invalid characters"

/-- `_binary_string(untyped)` from `type_validator.py`.  The byte-alignment
check precedes whitespace removal, exactly as in the source; the final
`bytes.fromhex(format(int(s, 2), 'x'))` raises an uncaught `ValueError`
whenever the value's hex form has an odd digit count. -/
def val_binary_string (untyped : List Char) : Except String (List Nat) :=
  let s := untyped.drop 1
  if s.length % 8 > 0 then .error "Binary is not byte-aligned"
  else
    let s := s.filter (fun c => !(pyIsSpace c))
    if ¬s.isEmpty ∧ s.all isBinDigitPy then
      let v := s.foldl (fun n c => 2 * n + (if c = '1' then 1 else 0)) 0
      let h := Nat.toDigits 16 v
      if h.length % 2 = 0 then .ok (hexPairsToBytes h)
      else .error "ValueError: non-hexadecimal number found in fromhex() arg"
    else .error "Binary contains invalid characters"

/-- `_data(untyped)` from `type_validator.py`: the validator reached by the
`write` command (raw data lines) in the refactored parser. -/
def val_data (untyped : List Char) : Except String (List Nat) :=
  match untyped with
  | [] => .error "IndexError: string index out of range"
  | c :: _ =>
    if isHexDigitPy c then val_hex_string untyped
    else if c = '%' then val_binary_string untyped
    else .error "Invalid syntax"

theorem parse_opcodes_cons (c : Char) (rest : List Char) :
    parse_opcodes [] (String.mk (c :: rest)) =
      (if isHexDigitPy c then
        let cs := removeWhitespacePy (c :: rest)
        if ¬cs.isEmpty ∧ cs.all isHexDigitPy then
          if cs.length % 2 > 0 then
            [.WARNING "Hex data is not byte-aligned; padding to the nearest byte",
             .HEX ('0' :: cs)]
          else [.HEX cs]
        else [SYNTAX_ERROR]
      else if (c :: rest).length = 1 then [SYNTAX_ERROR]
      else if c = '%' then
        let cs := removeWhitespacePy rest
        if ¬cs.isEmpty ∧ cs.all isBinDigitPy then
          if cs.length % 8 > 0 then
            [.WARNING "Binary data is not byte-aligned; padding to the nearest byte",
             .BIN (List.replicate (8 - cs.length % 8) '0' ++ cs)]
          else [.BIN cs]
        else [SYNTAX_ERROR]
      else if c = '+' ∨ c = '!' then [.OTHER (c :: rest)]
      else [SYNTAX_ERROR]) := rfl

theorem hex_not_space {c : Char} (h : isHexDigitPy c = true) : pyIsSpace c = false := by
  by_contra hc
  rw [Bool.not_eq_false, pyIsSpace, decide_eq_true_eq] at hc
  rcases hc with rfl | rfl | rfl | rfl | rfl | rfl <;> exact absurd h (by decide)

theorem bin_not_space {c : Char} (h : isBinDigitPy c = true) : pyIsSpace c = false := by
  rw [isBinDigitPy, decide_eq_true_eq] at h
  rcases h with rfl | rfl <;> decide

set_option maxHeartbeats 1000000 in
/-- C9: a raw hex data line with an odd digit count, or a `%`-binary line
whose bit count is not a multiple of 8, is *parsed leniently* by
`lineparser.parse_opcodes`: a non-fatal warning plus the payload left-padded
with zeros to the nearest byte, never a fatal error — while the refactored
`type_validator` rejects the same payloads with a fatal `BuildError`
(evaluated here at the failing inputs `abc` and `%1111111`). -/
theorem data_line_padding :
    (∀ (c0 : Char) (rest : List Char),
      (∀ c ∈ c0 :: rest, isHexDigitPy c = true) → (c0 :: rest).length % 2 = 1 →
      parse_opcodes [] (String.mk (c0 :: rest)) =
        [.WARNING "Hex data is not byte-aligned; padding to the nearest byte",
         .HEX ('0' :: c0 :: rest)]) ∧
    (∀ (cs : List Char), cs ≠ [] →
      (∀ c ∈ cs, isBinDigitPy c = true) → cs.length % 8 ≠ 0 →
      parse_opcodes [] (String.mk ('%' :: cs)) =
        [.WARNING "Binary data is not byte-aligned; padding to the nearest byte",
         .BIN (List.replicate (8 - cs.length % 8) '0' ++ cs)]) ∧
    val_data "abc".data = .error "Hex is not byte-aligned or contains invalid characters" ∧
    val_data "%1111111".data = .error "Binary is not byte-aligned" := by
  refine ⟨?_, ?_, by decide, by decide⟩
  · intro c0 rest hhex hodd
    have hfilter : removeWhitespacePy (c0 :: rest) = c0 :: rest := by
      rw [removeWhitespacePy, List.filter_eq_self]
      intro a ha
      rw [hex_not_space (hhex a ha)]
      rfl
    rw [parse_opcodes_cons]
    rw [if_pos (hhex c0 (List.mem_cons_self c0 rest)), hfilter]
    rw [if_pos ⟨by simp, List.all_eq_true.mpr hhex⟩, if_pos (by omega)]
  · intro cs hne hbin hmod
    obtain ⟨b0, brest, rfl⟩ : ∃ b0 brest, cs = b0 :: brest := by
      cases cs with
      | nil => exact absurd rfl hne
      | cons b0 brest => exact ⟨b0, brest, rfl⟩
    have hfilter : removeWhitespacePy (b0 :: brest) = b0 :: brest := by
      rw [removeWhitespacePy, List.filter_eq_self]
      intro a ha
      rw [bin_not_space (hbin a ha)]
      rfl
    rw [parse_opcodes_cons]
    rw [if_neg (by decide), if_neg (by simp), if_pos rfl, hfilter]
    rw [if_pos ⟨by simp, List.all_eq_true.mpr hbin⟩, if_pos (by omega)]

/-- Witness for C9's two universally quantified parts at `abc` and
`%1111111`. -/
theorem data_line_padding_witness :
    parse_opcodes [] (String.mk ['a', 'b', 'c']) =
      [.WARNING "Hex data is not byte-aligned; padding to the nearest byte",
       .HEX ['0', 'a', 'b', 'c']] ∧
    parse_opcodes [] (String.mk ('%' :: ['1', '1', '1', '1', '1', '1', '1'])) =
      [.WARNING "Binary data is not byte-aligned; padding to the nearest byte",
       .BIN (List.replicate (8 - ['1', '1', '1', '1', '1', '1', '1'].length % 8) '0' ++
         ['1', '1', '1', '1', '1', '1', '1'])] :=
  ⟨data_line_padding.1 'a' ['b', 'c'] (by decide) (by decide),
   data_line_padding.2.1 ['1', '1', '1', '1', '1', '1', '1'] (by decide) (by decide)
     (by decide)⟩

end MGC
